import Mathlib

/-!
Verification of the two-faction battle simulation (advanced_battle.py,
console_battle.py). The namespaces `Adv` and `Con` hold shallow embeddings
of the two engine variants; Python randomness is modelled by an explicit
oracle stream of naturals, and Python exceptions by the `PyErr` type.
-/

/-- One of exactly two opposing sides. -/
inductive Team
  | blue
  | red
deriving DecidableEq

/-- The opposing faction. -/
def Team.other : Team → Team
  | .blue => .red
  | .red => .blue

/-- A tile coordinate (x, y), with Python int semantics. -/
abbrev Pos := Int × Int

/-- Exceptions the Python code can raise. -/
inductive PyErr
  | valueError
  | attributeError
deriving DecidableEq

/-- Draw one number from the random oracle stream. -/
def rngDraw : List Nat → Nat × List Nat
  | [] => (0, [])
  | n :: r => (n, r)

/-- Model of `random.randint(a, b)` (inclusive bounds): the oracle picks a
value in the range. -/
def randintO (a b : Nat) (rng : List Nat) : Nat × List Nat :=
  let (n, r) := rngDraw rng
  (a + n % (b - a + 1), r)

/-- Model of `random.choice(l)`: the oracle picks an index. Returns `none`
only on the empty list (where Python would raise). -/
def choiceO {α : Type} (l : List α) (rng : List Nat) : Option α × List Nat :=
  let (n, r) := rngDraw rng
  (l.get? (n % l.length), r)

namespace Adv

/-! Embedding of `advanced_battle.py`. Grid constants: TILE_SIZE 20 on an
800x600 window gives COLS = 40, ROWS = 30; FPS = 60. Rendering, the pygame
event loop and the csv event log are presentation and are omitted. -/

def COLS : Int := 40
def ROWS : Int := 30
def FPS : Nat := 60
def HQ_HP : Int := 500

/-- Terrain kinds OPEN, WALL, FOREST. -/
inductive Terr
  | open_
  | wall
  | forest
deriving DecidableEq

/-- Python `in_bounds`. -/
def inBounds (p : Pos) : Bool :=
  0 ≤ p.1 && p.1 < COLS && 0 ≤ p.2 && p.2 < ROWS

/-- Python `manhattan`. -/
def manhattan (a b : Pos) : Int :=
  |a.1 - b.1| + |a.2 - b.2|

/-- Python `neighbors`: the 4-neighbor offsets in the fixed source order
(+x, -x, +y, -y), filtered to in-bounds tiles. -/
def nbrs (p : Pos) : List Pos :=
  [(p.1 + 1, p.2), (p.1 - 1, p.2), (p.1, p.2 + 1), (p.1, p.2 - 1)].filter
    (fun q => inBounds q)

/-- All in-bounds positions (used only for the termination measure of the
breadth-first search loop). -/
def allPosA : List Pos :=
  ((List.range 40).map Int.ofNat).flatMap
    (fun x => ((List.range 30).map Int.ofNat).map (fun y => (x, y)))

theorem mem_allPosA {p : Pos} (h : inBounds p = true) : p ∈ allPosA := by
  obtain ⟨x, y⟩ := p
  simp only [inBounds, Bool.and_eq_true, decide_eq_true_eq, COLS, ROWS] at h
  have hx : Int.ofNat x.toNat = x := by
    have h0 : (0 : Int) ≤ x := by omega
    exact_mod_cast Int.toNat_of_nonneg h0
  have hy : Int.ofNat y.toNat = y := by
    have h0 : (0 : Int) ≤ y := by omega
    exact_mod_cast Int.toNat_of_nonneg h0
  simp only [allPosA, List.mem_flatMap, List.mem_map, List.mem_range]
  exact ⟨x, ⟨x.toNat, by omega, hx⟩, y, ⟨y.toNat, by omega, hy⟩, rfl⟩

theorem mem_allPosA_of_nbrs {p q : Pos} (h : q ∈ nbrs p) : q ∈ allPosA := by
  simp only [nbrs, List.mem_filter] at h
  exact mem_allPosA h.2

theorem self_not_mem_nbrs (p : Pos) : p ∉ nbrs p := by
  obtain ⟨a, b⟩ := p
  intro h
  simp only [nbrs, List.mem_filter] at h
  rcases h with ⟨h, -⟩
  simp only [List.mem_cons, List.not_mem_nil, or_false, Prod.mk.injEq] at h
  omega

/-- The `came` dictionary of the BFS, as an association list (keys are
inserted at most once, so first-match lookup is dict lookup). -/
def camLookup (came : List (Pos × Option Pos)) (p : Pos) : Option (Option Pos) :=
  (came.find? (fun e => e.1 = p)).map (·.2)

theorem camLookup_cons (q v : _) (came : List (Pos × Option Pos)) (p : Pos) :
    camLookup ((q, v) :: came) p = if q = p then some v else camLookup came p := by
  by_cases h : q = p <;> simp [camLookup, List.find?_cons, h]

/-- Number of in-bounds positions not yet in `came` (termination measure). -/
def freeCnt (came : List (Pos × Option Pos)) : Nat :=
  (allPosA.filter (fun p => (camLookup came p).isNone)).length

theorem filter_length_mono {α : Type} (l : List α) (p q : α → Bool)
    (h : ∀ a, q a = true → p a = true) :
    (l.filter q).length ≤ (l.filter p).length := by
  induction l with
  | nil => simp
  | cons a t ih =>
    by_cases hq : q a = true
    · simp [List.filter_cons, hq, h a hq]; omega
    · simp only [List.filter_cons]
      rw [if_neg (by simp_all)]
      by_cases hp : p a = true
      · simp [hp]; omega
      · rw [if_neg (by simp_all)]; exact ih

theorem filter_length_lt {α : Type} (l : List α) (p q : α → Bool)
    (x : α) (h : ∀ a, q a = true → p a = true) :
    x ∈ l → p x = true → q x = false →
    (l.filter q).length < (l.filter p).length := by
  induction l with
  | nil => intro hx; cases hx
  | cons a t ih =>
    intro hx hpx hqx
    by_cases hax : a = x
    · subst hax
      simp only [List.filter_cons, hpx, hqx, if_true, Bool.false_eq_true,
        if_false, List.length_cons]
      exact Nat.lt_succ_of_le (filter_length_mono t p q h)
    · have hxt : x ∈ t := by
        rcases List.mem_cons.mp hx with h1 | h1
        · exact absurd h1.symm hax
        · exact h1
      by_cases hq : q a = true
      · simp only [List.filter_cons, hq, h a hq, if_true, List.length_cons]
        exact Nat.succ_lt_succ (ih hxt hpx hqx)
      · have hq' : q a = false := by simpa using hq
        simp only [List.filter_cons, hq', Bool.false_eq_true, if_false]
        by_cases hp : p a = true
        · simp only [hp, if_true, List.length_cons]
          exact Nat.lt_succ_of_lt (ih hxt hpx hqx)
        · have hp' : p a = false := by simpa using hp
          simp only [hp', Bool.false_eq_true, if_false]
          exact ih hxt hpx hqx

theorem freeCnt_insert {came : List (Pos × Option Pos)} {p : Pos}
    (hmem : p ∈ allPosA) (hfree : camLookup came p = none) (v : Option Pos) :
    freeCnt ((p, v) :: came) < freeCnt came := by
  refine filter_length_lt allPosA _ _ p ?_ hmem ?_ ?_
  · intro a ha
    rw [camLookup_cons] at ha
    by_cases h : p = a
    · simp [h] at ha
    · rw [if_neg h] at ha; simpa using ha
  · simp [hfree]
  · simp [camLookup_cons]

/-- Inner step of the BFS while-loop: scan the neighbor list of `cur`,
skipping tiles already in `came`, walls, and — only when `cur` is the start
tile — tiles occupied by another unit; record the rest in `came` and
collect them for the queue, in source order. -/
def expand (terr : Pos → Terr) (occ : List Pos) (start cur : Pos) :
    List Pos → List (Pos × Option Pos) → List (Pos × Option Pos) × List Pos
  | [], came => (came, [])
  | n :: rest, came =>
    if (camLookup came n).isSome then expand terr occ start cur rest came
    else if terr n = .wall then expand terr occ start cur rest came
    else if cur = start ∧ n ∈ occ then expand terr occ start cur rest came
    else
      let r := expand terr occ start cur rest ((n, some cur) :: came)
      (r.1, n :: r.2)

theorem expand_measure (terr : Pos → Terr) (occ : List Pos) (start cur : Pos) :
    ∀ (ns : List Pos) (came : List (Pos × Option Pos)),
      (∀ n ∈ ns, n ∈ allPosA) →
      freeCnt (expand terr occ start cur ns came).1 +
        (expand terr occ start cur ns came).2.length ≤ freeCnt came := by
  intro ns
  induction ns with
  | nil => intro came _; simp [expand]
  | cons n rest ih =>
    intro came hmem
    have hrest : ∀ m ∈ rest, m ∈ allPosA := fun m hm => hmem m (List.mem_cons_of_mem _ hm)
    by_cases h1 : (camLookup came n).isSome
    · simpa [expand, h1] using ih came hrest
    · by_cases h2 : terr n = .wall
      · simpa [expand, h1, h2] using ih came hrest
      · by_cases h3 : cur = start ∧ n ∈ occ
        · simpa [expand, h1, h2, h3] using ih came hrest
        · have hfree : camLookup came n = none := by
            cases hcl : camLookup came n
            · rfl
            · simp [hcl] at h1
          have hlt : freeCnt ((n, some cur) :: came) < freeCnt came :=
            freeCnt_insert (hmem n (List.mem_cons_self n rest)) hfree _
          have hme := ih ((n, some cur) :: came) hrest
          have hexp : expand terr occ start cur (n :: rest) came =
              ((expand terr occ start cur rest ((n, some cur) :: came)).1,
               n :: (expand terr occ start cur rest ((n, some cur) :: came)).2) := by
            simp [expand, h1, h2, h3]
          rw [hexp]
          simp only [List.length_cons]
          omega

/-- Path reconstruction of `Unit.bfs`: walk `came` parent links back from
the goal until the tile adjacent to the start. The Python while-loop
follows parent pointers; the chain is bounded by the size of `came`, which
is supplied as fuel. -/
def reconstruct (came : List (Pos × Option Pos)) (start : Pos) :
    Pos → Nat → Pos
  | cur, 0 => cur
  | cur, fuel + 1 =>
    match camLookup came cur with
    | some (some par) => if par = start then cur else reconstruct came start par fuel
    | _ => cur

/-- The while-loop of `Unit.bfs`: pop the queue front; if the popped tile
is a goal, return `none` when it is the start itself, else the
reconstructed first step; otherwise expand its neighbors. An exhausted
queue returns the start tile ("no path found"). -/
def bfsLoop (terr : Pos → Terr) (occ goals : List Pos) (start : Pos) :
    List (Pos × Option Pos) → List Pos → Option Pos
  | _, [] => some start
  | came, cur :: rest =>
    if cur ∈ goals then
      if cur = start then none
      else some (reconstruct came start cur came.length)
    else
      bfsLoop terr occ goals start
        (expand terr occ start cur (nbrs cur) came).1
        (rest ++ (expand terr occ start cur (nbrs cur) came).2)
termination_by came queue => freeCnt came + queue.length
decreasing_by
  have hme := expand_measure terr occ start cur (nbrs cur) came
    (fun n hn => mem_allPosA_of_nbrs hn)
  simp only [List.length_append, List.length_cons]
  omega

/-- Python `Unit.bfs(goals, units)`: breadth-first search from the unit
position over non-wall tiles; `occ` is the set of tiles occupied by the
other units, blocked only as the immediate first step. -/
def Unit.bfs (terr : Pos → Terr) (occ goals : List Pos) (start : Pos) :
    Option Pos :=
  bfsLoop terr occ goals start [(start, none)] [start]

/-- One walkable step of the grid: a 4-neighbor move onto a non-wall tile. -/
def WalkStep (terr : Pos → Terr) (a b : Pos) : Prop :=
  b ∈ nbrs a ∧ terr b ≠ .wall

/-- A goal is reachable through walkable tiles. -/
def Reach (terr : Pos → Terr) : Pos → Pos → Prop :=
  Relation.ReflTransGen (WalkStep terr)

theorem expand_added_mem (terr : Pos → Terr) (occ : List Pos) (start cur : Pos) :
    ∀ (ns : List Pos) (came : List (Pos × Option Pos)) (p : Pos),
      p ∈ (expand terr occ start cur ns came).2 → p ∈ ns ∧ terr p ≠ .wall := by
  intro ns
  induction ns with
  | nil => intro came p hp; simp [expand] at hp
  | cons n rest ih =>
    intro came p hp
    by_cases h1 : (camLookup came n).isSome
    · rw [show expand terr occ start cur (n :: rest) came =
          expand terr occ start cur rest came by simp [expand, h1]] at hp
      exact ⟨List.mem_cons_of_mem _ (ih came p hp).1, (ih came p hp).2⟩
    · by_cases h2 : terr n = .wall
      · rw [show expand terr occ start cur (n :: rest) came =
            expand terr occ start cur rest came by simp [expand, h1, h2]] at hp
        exact ⟨List.mem_cons_of_mem _ (ih came p hp).1, (ih came p hp).2⟩
      · by_cases h3 : cur = start ∧ n ∈ occ
        · rw [show expand terr occ start cur (n :: rest) came =
              expand terr occ start cur rest came by simp [expand, h1, h2, h3]] at hp
          exact ⟨List.mem_cons_of_mem _ (ih came p hp).1, (ih came p hp).2⟩
        · rw [show expand terr occ start cur (n :: rest) came =
              ((expand terr occ start cur rest ((n, some cur) :: came)).1,
               n :: (expand terr occ start cur rest ((n, some cur) :: came)).2) by
              simp [expand, h1, h2, h3]] at hp
          rcases List.mem_cons.mp hp with rfl | hp'
          · exact ⟨List.mem_cons_self _ _, h2⟩
          · exact ⟨List.mem_cons_of_mem _ (ih _ p hp').1, (ih _ p hp').2⟩

theorem bfsLoop_unreach (terr : Pos → Terr) (occ goals : List Pos) (start : Pos)
    (H : ∀ g ∈ goals, ¬ Reach terr start g) :
    ∀ (N : Nat) (came : List (Pos × Option Pos)) (queue : List Pos),
      freeCnt came + queue.length ≤ N →
      (∀ p ∈ queue, Reach terr start p) →
      bfsLoop terr occ goals start came queue = some start := by
  intro N
  induction N with
  | zero =>
    intro came queue hm hq
    have hq0 : queue = [] := by
      cases queue with
      | nil => rfl
      | cons a t => simp at hm
    subst hq0
    rw [bfsLoop.eq_def]
  | succ N ih =>
    intro came queue hm hq
    cases queue with
    | nil => rw [bfsLoop.eq_def]
    | cons cur rest =>
      have hcur : Reach terr start cur := hq cur (List.mem_cons_self _ _)
      have hng : cur ∉ goals := fun hg => H cur hg hcur
      rw [bfsLoop.eq_def]
      simp only [hng, if_false]
      apply ih
      · have hme := expand_measure terr occ start cur (nbrs cur) came
          (fun n hn => mem_allPosA_of_nbrs hn)
        simp only [List.length_append, List.length_cons] at hm ⊢
        omega
      · intro p hp
        rcases List.mem_append.mp hp with hp' | hp'
        · exact hq p (List.mem_cons_of_mem _ hp')
        · obtain ⟨hnn, hw⟩ := expand_added_mem terr occ start cur (nbrs cur) came p hp'
          exact Relation.ReflTransGen.tail hcur ⟨hnn, hw⟩

theorem expand_congr (terr : Pos → Terr) (occ occ' : List Pos) (start cur : Pos)
    (H : cur = start → ∀ n ∈ nbrs start, (n ∈ occ ↔ n ∈ occ')) :
    ∀ (ns : List Pos) (came : List (Pos × Option Pos)),
      (∀ n ∈ ns, n ∈ nbrs cur) →
      expand terr occ start cur ns came = expand terr occ' start cur ns came := by
  intro ns
  induction ns with
  | nil => intro came _; rfl
  | cons n rest ih =>
    intro came hsub
    have hrest : ∀ m ∈ rest, m ∈ nbrs cur := fun m hm => hsub m (List.mem_cons_of_mem _ hm)
    have hocc : (cur = start ∧ n ∈ occ) ↔ (cur = start ∧ n ∈ occ') := by
      constructor
      · rintro ⟨h1, h2⟩
        exact ⟨h1, (H h1 n (h1 ▸ hsub n (List.mem_cons_self _ _))).mp h2⟩
      · rintro ⟨h1, h2⟩
        exact ⟨h1, (H h1 n (h1 ▸ hsub n (List.mem_cons_self _ _))).mpr h2⟩
    by_cases h1 : (camLookup came n).isSome
    · simp only [expand, h1, if_true]
      exact ih came hrest
    · by_cases h2 : terr n = .wall
      · simp only [expand, h1, h2]
        simp only [Bool.false_eq_true, if_false, if_true]
        exact ih came hrest
      · by_cases h3 : cur = start ∧ n ∈ occ
        · have h3' : cur = start ∧ n ∈ occ' := hocc.mp h3
          rw [show expand terr occ start cur (n :: rest) came =
                expand terr occ start cur rest came by simp [expand, h1, h2, h3],
              show expand terr occ' start cur (n :: rest) came =
                expand terr occ' start cur rest came by simp [expand, h1, h2, h3']]
          exact ih came hrest
        · have h3' : ¬ (cur = start ∧ n ∈ occ') := fun hx => h3 (hocc.mpr hx)
          rw [show expand terr occ start cur (n :: rest) came =
                ((expand terr occ start cur rest ((n, some cur) :: came)).1,
                 n :: (expand terr occ start cur rest ((n, some cur) :: came)).2) by
                simp [expand, h1, h2, h3],
              show expand terr occ' start cur (n :: rest) came =
                ((expand terr occ' start cur rest ((n, some cur) :: came)).1,
                 n :: (expand terr occ' start cur rest ((n, some cur) :: came)).2) by
                simp [expand, h1, h2, h3']]
          rw [ih ((n, some cur) :: came) hrest]

theorem bfsLoop_occ_congr (terr : Pos → Terr) (occ occ' goals : List Pos) (start : Pos)
    (H : ∀ n ∈ nbrs start, (n ∈ occ ↔ n ∈ occ')) :
    ∀ (N : Nat) (came : List (Pos × Option Pos)) (queue : List Pos),
      freeCnt came + queue.length ≤ N →
      bfsLoop terr occ goals start came queue = bfsLoop terr occ' goals start came queue := by
  intro N
  induction N with
  | zero =>
    intro came queue hm
    have hq0 : queue = [] := by
      cases queue with
      | nil => rfl
      | cons a t => simp at hm
    subst hq0
    rw [bfsLoop.eq_def, bfsLoop.eq_def]
  | succ N ih =>
    intro came queue hm
    cases queue with
    | nil => rw [bfsLoop.eq_def, bfsLoop.eq_def]
    | cons cur rest =>
      by_cases hg : cur ∈ goals
      · rw [bfsLoop.eq_def, bfsLoop.eq_def]
        simp only [hg, if_true]
      · have hexp : expand terr occ start cur (nbrs cur) came =
            expand terr occ' start cur (nbrs cur) came :=
          expand_congr terr occ occ' start cur (fun hc => hc ▸ H) (nbrs cur) came
            (fun n hn => hn)
        rw [bfsLoop.eq_def]
        conv_rhs => rw [bfsLoop.eq_def]
        simp only [hg, if_false]
        rw [← hexp]
        apply ih
        have hme := expand_measure terr occ start cur (nbrs cur) came
          (fun n hn => mem_allPosA_of_nbrs hn)
        simp only [List.length_append, List.length_cons] at hm ⊢
        omega

theorem expand_skip_occ (terr : Pos → Terr) (occ : List Pos) (start : Pos) :
    ∀ (ns : List Pos) (came : List (Pos × Option Pos)),
      (∀ n ∈ ns, n ∈ occ) →
      expand terr occ start start ns came = (came, []) := by
  intro ns
  induction ns with
  | nil => intro came _; rfl
  | cons n rest ih =>
    intro came hocc
    have hrest : ∀ m ∈ rest, m ∈ occ := fun m hm => hocc m (List.mem_cons_of_mem _ hm)
    by_cases h1 : (camLookup came n).isSome
    · simp only [expand, h1, if_true]; exact ih came hrest
    · by_cases h2 : terr n = .wall
      · simp only [expand, h1, h2]
        simp only [Bool.false_eq_true, if_false, if_true]
        exact ih came hrest
      · have h3 : start = start ∧ n ∈ occ := ⟨rfl, hocc n (List.mem_cons_self _ _)⟩
        simp only [expand, h1, h2, h3, if_true]
        simp only [Bool.false_eq_true, if_false]
        exact ih came hrest

end Adv

namespace Adv

/-- Unit roles from the UNIT_TYPES table. -/
inductive UType
  | Infantry
  | Tank
  | Scout
  | Shieldbearer
  | Medic
  | BarrierEng
  | RepairBot
  | Spotter
deriving DecidableEq

def typeHp : UType → Int
  | .Infantry => 100 | .Tank => 200 | .Scout => 60 | .Shieldbearer => 120
  | .Medic => 80 | .BarrierEng => 90 | .RepairBot => 70 | .Spotter => 60

def typeDmg : UType → Int
  | .Infantry => 10 | .Tank => 20 | .Scout => 5 | .Shieldbearer => 6
  | .Medic => 3 | .BarrierEng => 4 | .RepairBot => 2 | .Spotter => 4

def typeSpeed : UType → Nat
  | .Scout => 2 | _ => 1

def typeCost : UType → Int
  | .Infantry => 3 | .Tank => 5 | .Scout => 2 | .Shieldbearer => 4
  | .Medic => 4 | .BarrierEng => 5 | .RepairBot => 4 | .Spotter => 3

/-- A unit object of `advanced_battle.py`. The `cooldown` field models the
Python attribute of the same name, which `__init__` never sets: it is
`none` until `move_to` first assigns it (on entering forest), and reading
it while `none` raises AttributeError. -/
structure Unit where
  uid : Nat
  team : Team
  x : Int
  y : Int
  uType : UType
  maxHp : Int
  hp : Int
  dmg : Int
  speed : Nat
  cost : Int
  dmgReduction : Rat
  lastHealFrame : Nat
  barrierCd : Nat
  moveCd : Nat
  hqCounter : Nat
  attackCd : Nat
  cooldown : Option Int
deriving DecidableEq

def Unit.pos (u : Unit) : Pos := (u.x, u.y)

/-- HQ top-left corners: blue at (1, ROWS//2-1), red at (COLS-3, ROWS//2-1). -/
def hqX : Team → Int
  | .blue => 1
  | .red => 37

def hqY : Team → Int
  | _ => 14

/-- Python `HQ.tiles`: the 2x2 footprint, in source iteration order. -/
def HQ.tiles (t : Team) : List Pos :=
  [(hqX t, hqY t), (hqX t + 1, hqY t), (hqX t, hqY t + 1), (hqX t + 1, hqY t + 1)]

/-- The mutable game state of `advanced_battle.py` that the embedded
operations read and write: the unit roster, per-team HQ health, the
terrain grid (mutable via wall placement), per-team resources, the global
uid counter and the random oracle. -/
structure State where
  units : List Unit
  hqHp : Team → Int
  terr : Pos → Terr
  resources : Team → Int
  uidCtr : Nat
  rng : List Nat

def findU (st : State) (uid : Nat) : Option Unit :=
  st.units.find? (fun u => u.uid = uid)

/-- Write back a mutated unit object (identified by uid) into the roster. -/
def setU (st : State) (u : Unit) : State :=
  { st with units := st.units.map (fun v => if v.uid = u.uid then u else v) }

def updT (f : Team → Int) (t : Team) (v : Int) : Team → Int :=
  fun s => if s = t then v else f s

/-- Python `units.remove(u)`: drop the first occurrence. -/
def removeFirst : List Unit → Nat → List Unit
  | [], _ => []
  | u :: r, i => if u.uid = i then r else u :: removeFirst r i

/-- The guarded removal of `advanced_battle.py`:
`if u in units: units.remove(u) else: print(...)` — a no-op when the unit
is no longer present. -/
def removeGuarded (us : List Unit) (i : Nat) : List Unit :=
  if us.any (fun u => u.uid = i) then removeFirst us i else us

def occupiedBy (us : List Unit) (p : Pos) : Bool :=
  us.any (fun u => decide (u.x = p.1 ∧ u.y = p.2))

/-- First enemy in roster order within Manhattan distance 1 (the scan of
`Unit.attack`). -/
def findAdjEnemy (self : Unit) : List Unit → Option Unit
  | [] => none
  | u :: r =>
    if u.team = self.team then findAdjEnemy self r
    else if |u.x - self.x| + |u.y - self.y| ≤ 1 then some u
    else findAdjEnemy self r

/-- Python `Unit.attack(units, hqs, frame)`: with attack cooldown 0, hit
the first adjacent enemy (damage scaled by its shield reduction, truncated
to int), set cooldown 5, remove it when lethal, and return True; otherwise
run the HQ siege logic (counter increment / threshold damage / reset) and
return False. -/
def Unit.attack (selfUid : Nat) (st : State) : Bool × State :=
  match findU st selfUid with
  | none => (false, st)
  | some self =>
    if self.attackCd > 0 then (false, st)
    else
      match findAdjEnemy self st.units with
      | some u =>
        let eff : Int := ((self.dmg : Rat) * (1 - u.dmgReduction)).floor
        let u' : Unit := { u with hp := u.hp - eff }
        let st1 := setU st u'
        let st2 := setU st1 { self with attackCd := 5 }
        let st3 := if u'.hp ≤ 0 then { st2 with units := removeGuarded st2.units u'.uid }
                   else st2
        (true, st3)
      | none =>
        let enemy := self.team.other
        if self.pos ∈ HQ.tiles enemy then
          if self.hqCounter + 1 ≥ 3 then
            let st1 := { st with hqHp := updT st.hqHp enemy (st.hqHp enemy - self.dmg) }
            (false, setU st1 { self with hqCounter := 0 })
          else (false, setU st { self with hqCounter := self.hqCounter + 1 })
        else (false, setU st { self with hqCounter := 0 })

/-- Target of the behavior tree: a unit or an HQ. -/
inductive Target
  | tUnit (u : Unit)
  | tHq (t : Team)

def targetPositions : Target → List Pos
  | .tUnit u => [u.pos]
  | .tHq t => HQ.tiles t

/-- Python `min(manhattan(t, e) for t in own_hq.tiles())`. -/
def minDistHqTiles (t : Team) (p : Pos) : Int :=
  match HQ.tiles t with
  | [] => 0
  | h :: r => r.foldl (fun m q => min m (manhattan q p)) (manhattan h p)

/-- The nearest-ally scan of `decide_target` (first strict improvement,
initial distance 999, skipping self). -/
def nearestAllyAux (self : Unit) : List Unit → Option Unit → Int → Option Unit × Int
  | [], best, d => (best, d)
  | a :: r, best, d =>
    if a.uid = self.uid then nearestAllyAux self r best d
    else if manhattan self.pos a.pos < d then
      nearestAllyAux self r (some a) (manhattan self.pos a.pos)
    else nearestAllyAux self r best d

/-- Python `Unit.decide_target`: defend the HQ against close visible
enemies (random pick), regroup when the team is small and the nearest ally
is far, advance on the enemy HQ with a large team, else hold at the own
HQ. -/
def Unit.decide_target (self : Unit) (visibleEnemies teamUnits : List Unit)
    (rng : List Nat) : Target × List Nat :=
  let closeE := visibleEnemies.filter (fun e => decide (minDistHqTiles self.team e.pos ≤ 4))
  if ¬ closeE.isEmpty then
    match choiceO closeE rng with
    | (some e, r) => (.tUnit e, r)
    | (none, r) => (.tHq self.team, r)
  else
    let cont : Target :=
      if teamUnits.length ≥ 5 then .tHq self.team.other else .tHq self.team
    if teamUnits.length < 3 then
      match nearestAllyAux self teamUnits none 999 with
      | (some a, d) => if 4 < d then (.tUnit a, rng) else (cont, rng)
      | (none, _) => (cont, rng)
    else (cont, rng)

/-- Python `min(close_enemies, key=dist)`: first minimum in list order. -/
def minByDist (self : Unit) : List Unit → Option Unit
  | [] => none
  | e :: r =>
    some (r.foldl (fun b x =>
      if manhattan self.pos x.pos < manhattan self.pos b.pos then x else b) e)

/-- Python `Unit.move_to`: entering forest sets the (previously possibly
missing) `cooldown` attribute to 1, then the position is updated. -/
def movedUnit (st : State) (self : Unit) (p : Pos) : Unit :=
  { self with
    cooldown := if st.terr p = .forest then some 1 else self.cooldown,
    x := p.1, y := p.2 }

def occOthers (us : List Unit) (selfUid : Nat) : List Pos :=
  (us.filter (fun u => u.uid ≠ selfUid)).map Unit.pos

/-- The `for _ in range(self.speed)` movement loop of `Unit.update`: call
the pathfinder, break when the next tile is occupied, otherwise move and
reset the movement cooldown; attack afterwards, breaking on success. -/
def moveLoop (selfUid frame : Nat) (tgt : List Pos) : Nat → State → State
  | 0, st => st
  | k + 1, st =>
    match findU st selfUid with
    | none => st
    | some self =>
      match Unit.bfs st.terr (occOthers st.units selfUid) tgt self.pos with
      | some p =>
        if p = self.pos then
          let r := Unit.attack selfUid st
          if r.1 then r.2 else moveLoop selfUid frame tgt k r.2
        else if occupiedBy st.units p then st
        else
          let self1 := movedUnit st self p
          let (cd, rr) := randintO 10 20 st.rng
          let st2 := setU { st with rng := rr } { self1 with moveCd := cd }
          let r := Unit.attack selfUid st2
          if r.1 then r.2 else moveLoop selfUid frame tgt k r.2
      | none =>
        let r := Unit.attack selfUid st
        if r.1 then r.2 else moveLoop selfUid frame tgt k r.2

/-- Shieldbearer aura: allies within distance 2 get damage reduction 0.5. -/
def shieldAura (st : State) (self : Unit) : State :=
  { st with units := st.units.map (fun a =>
      if a.team = self.team ∧ a.uid ≠ self.uid ∧ manhattan a.pos self.pos ≤ 2
      then { a with dmgReduction := max a.dmgReduction (1 / 2 : Rat) } else a) }

/-- Medic: once per second, +1 hp to damaged teammates within distance 2,
then record the heal frame on the medic object. -/
def medicHeal (st : State) (selfUid frame : Nat) (self : Unit) : State :=
  if frame - self.lastHealFrame ≥ FPS then
    let st1 := { st with units := st.units.map (fun a =>
      if a.team = self.team ∧ a.hp < a.maxHp ∧ manhattan a.pos self.pos ≤ 2
      then { a with hp := min a.maxHp (a.hp + 1) } else a) }
    match findU st1 selfUid with
    | some s => setU st1 { s with lastHealFrame := frame }
    | none => st1
  else st

/-- Oracle model of `random.shuffle`: the oracle picks a rotation. -/
def shuffleO {α : Type} (l : List α) (rng : List Nat) : List α × List Nat :=
  let (n, r) := rngDraw rng
  (l.rotateLeft (n % (l.length + 1)), r)

def placeWall (st : State) (self : Unit) : List Pos → State
  | [] => st
  | d :: rest =>
    let t : Pos := (self.x + d.1, self.y + d.2)
    if inBounds t ∧ st.terr t = .open_ ∧ ¬ (occupiedBy st.units t = true) then
      { st with terr := fun q => if q = t then .wall else st.terr q }
    else placeWall st self rest

/-- Barrier engineer: every five seconds turn one open unoccupied adjacent
tile into a wall (direction order shuffled). -/
def barrierAbility (st : State) (self : Unit) (frame : Nat) : State :=
  if frame % (FPS * 5) = 0 then
    let (dirs, r) := shuffleO ([(-1, 0), (1, 0), (0, -1), (0, 1)] : List Pos) st.rng
    placeWall { st with rng := r } self dirs
  else st

/-- Repair bot: once per second, +2 hp (capped) to each HQ whose top-left
corner is within distance 2 (dict order blue, red). -/
def repairAbility (st : State) (self : Unit) (frame : Nat) : State :=
  if frame % FPS = 0 then
    let st1 := if manhattan (hqX .blue, hqY .blue) self.pos ≤ 2 then
        { st with hqHp := updT st.hqHp .blue (min HQ_HP (st.hqHp .blue + 2)) }
      else st
    if manhattan (hqX .red, hqY .red) self.pos ≤ 2 then
      { st1 with hqHp := updT st1.hqHp .red (min HQ_HP (st1.hqHp .red + 2)) }
    else st1
  else st

/-- The body of `Unit.update` after the cooldown gates: compute visible
enemies, pick a target (engage within 5 tiles, else the behavior tree),
run the movement/attack loop, then the role ability. -/
def updateMain (selfUid frame : Nat) (vis : Team → List Pos) (st : State) : State :=
  match findU st selfUid with
  | none => st
  | some self =>
    let visibleEnemies := st.units.filter
      (fun u => decide (u.team ≠ self.team ∧ u.pos ∈ vis self.team))
    let teamUnits := st.units.filter (fun u => u.team = self.team)
    let close := visibleEnemies.filter (fun e => decide (manhattan self.pos e.pos ≤ 5))
    let tr :=
      if close.isEmpty then Unit.decide_target self visibleEnemies teamUnits st.rng
      else
        match minByDist self close with
        | some e => (Target.tUnit e, st.rng)
        | none => (Target.tHq self.team, st.rng)
    let st2 := moveLoop selfUid frame (targetPositions tr.1) self.speed { st with rng := tr.2 }
    match findU st2 selfUid with
    | none => st2
    | some s2 =>
      match s2.uType with
      | .Shieldbearer => shieldAura st2 s2
      | .Medic => medicHeal st2 selfUid frame s2
      | .BarrierEng => barrierAbility st2 s2 frame
      | .RepairBot => repairAbility st2 s2 frame
      | _ => st2

/-- Python `Unit.update(frame, units, hqs, visible_map)`: decrement the
attack cooldown; while the movement cooldown runs, decrement it and still
attack; otherwise read `self.cooldown` — an AttributeError when it was
never assigned — and either idle it down or run the main body. -/
def Unit.update (selfUid frame : Nat) (vis : Team → List Pos) (st : State) :
    Except PyErr State :=
  match findU st selfUid with
  | none => .ok st
  | some self0 =>
    let self := if self0.attackCd > 0 then { self0 with attackCd := self0.attackCd - 1 }
                else self0
    let st := setU st self
    if self.moveCd > 0 then
      let st := setU st { self with moveCd := self.moveCd - 1 }
      .ok (Unit.attack selfUid st).2
    else
      match self.cooldown with
      | none => .error .attributeError
      | some c =>
        if c > 0 then .ok (setU st { self with cooldown := some (c - 1) })
        else .ok (updateMain selfUid frame vis st)

/-- The HQ-destruction check of the main loop: a team whose HQ health is
at or below 0 loses; the opposing team is reported the winner. -/
def hqWinner (st : State) : Option Team :=
  if st.hqHp .blue ≤ 0 then some .red
  else if st.hqHp .red ≤ 0 then some .blue
  else none

def allTypes : List UType :=
  [.Infantry, .Tank, .Scout, .Shieldbearer, .Medic, .BarrierEng, .RepairBot, .Spotter]

/-- A freshly constructed Unit object (its `cooldown` attribute unset). -/
def mkUnit (uid : Nat) (team : Team) (x y : Int) (ty : UType) (cd : Nat) : Unit :=
  { uid := uid, team := team, x := x, y := y, uType := ty,
    maxHp := typeHp ty, hp := typeHp ty, dmg := typeDmg ty,
    speed := typeSpeed ty, cost := typeCost ty, dmgReduction := 0,
    lastHealFrame := 0, barrierCd := FPS * 5, moveCd := cd,
    hqCounter := 0, attackCd := 0, cooldown := none }

/-- The spawn candidate tiles of the resource/spawn phase: offsets
dx, dy in range(-2, 4) around the HQ corner, in bounds, not wall, not
occupied, in source iteration order. -/
def spawnCandidates (terr : Pos → Terr) (us : List Unit) (t : Team) : List Pos :=
  ([-2, -1, 0, 1, 2, 3] : List Int).flatMap (fun dx =>
    ([-2, -1, 0, 1, 2, 3] : List Int).filterMap (fun dy =>
      let s : Pos := (hqX t + dx, hqY t + dy)
      if inBounds s ∧ terr s ≠ .wall ∧ ¬ (occupiedBy us s = true)
      then some s else none))

/-- One team of the resource-accumulation/spawn block of the main loop:
+1 resource; if something is affordable, pick a type, and if a candidate
tile exists, spawn there and deduct the cost (no deduction otherwise). -/
def econTeam (t : Team) (st : State) : State :=
  let st := { st with resources := updT st.resources t (st.resources t + 1) }
  let afford := allTypes.filter (fun ty => decide (typeCost ty ≤ st.resources t))
  if afford.isEmpty then st
  else
    match choiceO afford st.rng with
    | (none, r) => { st with rng := r }
    | (some ty, r) =>
      let st := { st with rng := r }
      let cands := spawnCandidates st.terr st.units t
      if cands.isEmpty then st
      else
        match choiceO cands st.rng with
        | (none, r2) => { st with rng := r2 }
        | (some p, r2) =>
          let (cd, r3) := randintO 10 20 r2
          let u := mkUnit (st.uidCtr + 1) t p.1 p.2 ty cd
          { st with rng := r3, uidCtr := st.uidCtr + 1, units := st.units ++ [u],
                    resources := updT st.resources t (st.resources t - typeCost ty) }

/-- The per-frame resource/spawn phase (runs once per second). -/
def econPhase (frame : Nat) (st : State) : State :=
  if frame % FPS = 0 then econTeam .red (econTeam .blue st) else st

end Adv

namespace Con

/-! Embedding of `console_battle.py`: grid 60x30, FPS 10. Rendering
(including trail fading and attack-flash decay that happen inside
`render`/`view_symbol`) and the colorama strings are presentation and are
omitted; log lines are modelled as structured entries. The terrain grid of
this file is purely decorative (no game rule reads it), so it is not part
of the state. Units are Python objects referenced both from the `units`
list and from local variables, so the state keeps a heap of all unit
objects (keyed by id) plus the roster list of ids: an object removed from
the roster keeps acting through live references, exactly as in Python. -/

def WIDTH : Int := 60
def HEIGHT : Int := 30
def FPS : Nat := 10
def TRAIL_FADE : Nat := 3
def MOVE_MIN : Nat := 5
def MOVE_MAX : Nat := 10
def CAPTURE_FRAMES : Nat := 30
def VACATE_FRAMES : Nat := 100
def RESOURCE_INTERVAL : Nat := 50
def HQ_MAX_HP : Int := 300

inductive Weather
  | clear
  | rain
  | fog
  | storm
deriving DecidableEq

/-- A unit object of `console_battle.py` (the drawn `symbol` is omitted;
`auraBonus` models the `aura_bonus` attribute whose `getattr` default is
False before `update_commander_aura` first sets it). -/
structure Unit where
  id : Nat
  x : Int
  y : Int
  team : Team
  baseHp : Int
  hp : Int
  maxHp : Int
  baseDmg : Int
  dmg : Int
  moveCd : Nat
  flash : Nat
  killCnt : Nat
  xp : Nat
  isElite : Bool
  morale : Int
  unsupplied : Bool
  isCommander : Bool
  auraBonus : Bool
deriving DecidableEq

def Unit.pos (u : Unit) : Pos := (u.x, u.y)

/-- A fresh `Unit(x, y, team)` with the given id and rolled move cooldown. -/
def mkUnit (id : Nat) (x y : Int) (team : Team) (cd : Nat) : Unit :=
  { id := id, x := x, y := y, team := team, baseHp := 100, hp := 100,
    maxHp := 100, baseDmg := 10, dmg := 10, moveCd := cd, flash := 0,
    killCnt := 0, xp := 0, isElite := false, morale := 100,
    unsupplied := false, isCommander := false, auraBonus := false }

/-- Per-tile territory state: owner (`control_map`), capturing faction
(`capture_team`), capture progress (`capture_timer`) and vacate counter
(`vacate_timer`). -/
structure TileState where
  owner : Option Team
  capTeam : Option Team
  capTimer : Nat
  vacTimer : Nat
deriving DecidableEq

inductive BType
  | tower
  | factory
deriving DecidableEq

structure Building where
  btype : BType
  bpos : Pos
  owner : Option Team
  capTimer : Nat
  capTeam : Option Team
deriving DecidableEq

/-- Structured stand-ins for the f-string log lines. -/
inductive LogEntry
  | attackHit (attacker target : Nat) (dmg : Int)
  | destroyed (uid : Nat)
  | commanderFallen (t : Team)
  | becameElite (uid : Nat)
  | hqHit (uid : Nat) (t : Team) (dmg : Int)
  | buildingCaptured (t : Team)
  | weatherChanged (w : Weather)
  | weatherCleared
  | attritionDeath (uid : Nat)
deriving DecidableEq

def HQ_POS : Team → Pos
  | .blue => (1, 15)
  | .red => (58, 15)

def BARRACKS_POS : Team → Pos
  | .blue => (2, 15)
  | .red => (57, 15)

/-- The full mutable state of `console_battle.py` read or written by the
tick loop. -/
structure State where
  heap : List (Nat × Unit)
  roster : List Nat
  uidCtr : Nat
  resources : Team → Int
  hqHp : Team → Int
  killTally : Team → Nat
  ctrl : Pos → TileState
  buildings : List Building
  weather : Weather
  weatherTimer : Nat
  nextWeatherIn : Nat
  trailM : Pos → Option Nat
  log : List LogEntry
  rng : List Nat

def findU (st : State) (uid : Nat) : Option Unit :=
  (st.heap.find? (fun e => e.1 = uid)).map (·.2)

/-- Write a mutated unit object back to the heap. -/
def setU (st : State) (u : Unit) : State :=
  { st with heap := st.heap.map (fun e => if e.1 = u.id then (e.1, u) else e) }

/-- The live `units` list: roster ids dereferenced through the heap. -/
def rosterUnits (st : State) : List Unit :=
  st.roster.filterMap (findU st)

/-- Python `units.remove(u)`: remove the first occurrence, ValueError when
the unit is not present. -/
def rosterRemove : List Nat → Nat → Except PyErr (List Nat)
  | [], _ => .error .valueError
  | i :: r, j =>
    if i = j then .ok r
    else match rosterRemove r j with
      | .ok r2 => .ok (i :: r2)
      | .error e => .error e

def updT (f : Team → Int) (t : Team) (v : Int) : Team → Int :=
  fun s => if s = t then v else f s

def updK (f : Team → Nat) (t : Team) (v : Nat) : Team → Nat :=
  fun s => if s = t then v else f s

def setTrail (st : State) (p : Pos) : State :=
  { st with trailM := fun q => if q = p then some TRAIL_FADE else st.trailM q }

/-- Python `Unit._reset_cd`: rain doubles the rolled interval, a commander
aura shortens it by 10 percent (int truncation). -/
def Unit.reset_cd (st : State) (u : Unit) : Unit × List Nat :=
  let penalty : Nat := if st.weather = .rain then 2 else 1
  let (b, r) := randintO MOVE_MIN MOVE_MAX st.rng
  let base := if u.auraBonus then b * 9 / 10 else b
  ({ u with moveCd := base * penalty }, r)

/-- Direction a fleeing unit takes: away from the enemy HQ side. -/
def fleeDx : Team → Int
  | .blue => -1
  | .red => 1

/-- Python `min(enemies, key=manhattan)`: first minimum in list order. -/
def nearestEnemy (self : Unit) : List Unit → Option Unit
  | [] => none
  | e :: r =>
    some (r.foldl (fun b x =>
      if |x.x - self.x| + |x.y - self.y| < |b.x - self.x| + |b.y - self.y|
      then x else b) e)

/-- The tail of `attempt_move` after the morale gates. -/
def Unit.attempt_move_rest (st : State) (u : Unit) : State :=
  if u.moveCd > 0 then setU st { u with moveCd := u.moveCd - 1 }
  else
    let enemies := (rosterUnits st).filter (fun e => decide (e.team ≠ u.team))
    match nearestEnemy u enemies with
    | none => st
    | some target =>
      let st1 := setTrail st u.pos
      let x1 := if target.x > u.x then u.x + 1 else if target.x < u.x then u.x - 1 else u.x
      let y1 := if target.y > u.y then u.y + 1 else if target.y < u.y then u.y - 1 else u.y
      let x2 := max 0 (min x1 (WIDTH - 1))
      let y2 := max 0 (min y1 (HEIGHT - 1))
      let (u2, r) := Unit.reset_cd st1 { u with x := x2, y := y2 }
      setU { st1 with rng := r } u2

/-- Python `Unit.attempt_move(units)`: flee when morale is below 20
(unconditional one-tile x move away from the enemy side, trail recorded,
cooldown reset); hesitate with probability one half when morale is below
30; otherwise tick the cooldown down or take one greedy step toward the
nearest enemy, clamp to the board, and reset the cooldown. -/
def Unit.attempt_move (uid : Nat) (st : State) : State :=
  match findU st uid with
  | none => st
  | some u =>
    if u.morale < 20 then
      let tx := u.x + fleeDx u.team
      if 0 ≤ tx ∧ tx < WIDTH then
        let st1 := setTrail st u.pos
        let (u2, r) := Unit.reset_cd st1 { u with x := tx }
        setU { st1 with rng := r } u2
      else st
    else if u.morale < 30 then
      let (n, r) := rngDraw st.rng
      if n % 2 = 0 then { st with rng := r }
      else Unit.attempt_move_rest { st with rng := r } u
    else Unit.attempt_move_rest st u

/-- Python `apply_nearby_death_morale(dead_unit)`: same-team units at
Manhattan distance exactly 1 lose 10 morale (floored at 0). -/
def apply_nearby_death_morale (st : State) (dead : Unit) : State :=
  st.roster.foldl (fun s uid =>
    match findU s uid with
    | none => s
    | some u =>
      if |u.x - dead.x| + |u.y - dead.y| = 1 ∧ u.team = dead.team then
        setU s { u with morale := max 0 (u.morale - 10) }
      else s) st

/-- Python `Unit.become_elite(log)`. -/
def Unit.become_elite (st : State) (u : Unit) : State :=
  let u2 := { u with
    isElite := true,
    maxHp := u.baseHp + 50,
    hp := u.hp + 50,
    dmg := u.baseDmg + 5,
    moveCd := max (u.moveCd - 1) (MOVE_MIN / 2) }
  { setU st u2 with log := st.log ++ [.becameElite u.id] }

/-- The commander-death penalty inside `attempt_attack`: every surviving
unit of the fallen commander team loses 30 morale (floored at 0). -/
def commanderPenalty (st : State) (t : Team) : State :=
  st.roster.foldl (fun s uid =>
    match findU s uid with
    | none => s
    | some a =>
      if a.team = t then setU s { a with morale := max 0 (a.morale - 30) }
      else s) st

/-- The on-kill effects of `attempt_attack` (factored out of the kill
branch): destruction log, roster removal (ValueError on an absent unit),
death morale shock, commander penalty, kill tally, attacker xp and elite
promotion. -/
def killEffects (self u2 : Unit) (st : State) : Except PyErr State :=
  let st4 := { st with log := st.log ++ [LogEntry.destroyed u2.id] }
  match rosterRemove st4.roster u2.id with
  | .error e => .error e
  | .ok r2 =>
    let st5 := { st4 with roster := r2 }
    let st6 := apply_nearby_death_morale st5 u2
    let st7 :=
      if u2.isCommander then
        commanderPenalty { st6 with log := st6.log ++ [.commanderFallen u2.team] } u2.team
      else st6
    let st8 := { st7 with
      killTally := updK st7.killTally self.team (st7.killTally self.team + 1) }
    let self2 := { self with
      flash := 2
      killCnt := self.killCnt + 1
      xp := self.xp + 1 }
    let st9 := setU st8 self2
    if self2.xp ≥ 3 ∧ ¬ self2.isElite then .ok (Unit.become_elite st9 self2)
    else .ok st9

/-- Python `Unit.attempt_attack(units, log)`: hit the first enemy standing
on the same tile (aura-boosted damage, int truncation); on a kill, run the
kill effects. -/
def Unit.attempt_attack (uid : Nat) (st : State) : Except PyErr State :=
  match findU st uid with
  | none => .ok st
  | some self =>
    match (rosterUnits st).find? (fun e =>
        decide (e.team ≠ self.team ∧ e.x = self.x ∧ e.y = self.y)) with
    | none => .ok st
    | some u =>
      let d : Int := if self.auraBonus then self.dmg * 5 / 4 else self.dmg
      let u2 := { u with hp := u.hp - d }
      let st1 := setU st u2
      let st2 := { st1 with log := st1.log ++ [.attackHit self.id u.id d] }
      let st3 := setU st2 { self with flash := 2 }
      if u2.hp ≤ 0 then killEffects self u2 st3
      else .ok st3

/-- Per-tile transition of `update_control_map` (non-HQ tiles): an
occupied tile accrues capture progress for the first occupant faction
(owner set at the threshold) and clears the vacate counter; an empty tile
loses its progress and, when owned, counts toward decay. -/
def tileStep (ts : TileState) (occ : Option Team) : TileState :=
  match occ with
  | some t =>
    let ts1 := { ts with vacTimer := 0 }
    let ts2 :=
      if ts1.capTeam = some t then { ts1 with capTimer := ts1.capTimer + 1 }
      else { ts1 with capTeam := some t, capTimer := 1 }
    if ts2.capTimer ≥ CAPTURE_FRAMES then { ts2 with owner := some t } else ts2
  | none =>
    let ts1 := { ts with capTimer := 0, capTeam := none }
    match ts1.owner with
    | some _ =>
      let v := ts1.vacTimer + 1
      if v ≥ VACATE_FRAMES then { ts1 with owner := none, vacTimer := 0 }
      else { ts1 with vacTimer := v }
    | none => ts1

/-- Units standing on a tile, in roster order (the `unit_lookup` lists). -/
def unitsAt (st : State) (p : Pos) : List Unit :=
  (rosterUnits st).filter (fun u => decide (u.x = p.1 ∧ u.y = p.2))

/-- The faction whose capture progress a tile accrues: the team of the
first unit found there. -/
def occupantAt (st : State) (p : Pos) : Option Team :=
  (unitsAt st p).head?.map (·.team)

/-- Python `update_control_map(frame)`: every non-HQ tile steps by
`tileStep` on the occupancy snapshot; HQ tiles are permanent. -/
def update_control_map (st : State) : State :=
  let old := st.ctrl
  let occ := fun p => occupantAt st p
  { st with ctrl := fun p =>
      if p = HQ_POS .blue ∨ p = HQ_POS .red then old p
      else tileStep (old p) (occ p) }

/-- All board positions (for the owned-tile count). -/
def allPosC : List Pos :=
  ((List.range 30).map Int.ofNat).flatMap (fun y =>
    ((List.range 60).map Int.ofNat).map (fun x => (x, y)))

/-- Python `award_control_resources(frame)`: every 5 seconds each team
earns one resource per owned tile, plus one per owned factory. -/
def award_control_resources (frame : Nat) (st : State) : State :=
  if frame % RESOURCE_INTERVAL ≠ 0 then st
  else
    let cb := (allPosC.filter (fun p => (st.ctrl p).owner = some Team.blue)).length
    let cr := (allPosC.filter (fun p => (st.ctrl p).owner = some Team.red)).length
    let newRes := updT (updT st.resources .blue (st.resources .blue + cb)) .red
      (st.resources .red + cr)
    let st1 := { st with resources := newRes }
    st1.buildings.foldl (fun s b =>
      match b.btype, b.owner with
      | .factory, some t => { s with resources := updT s.resources t (s.resources t + 1) }
      | _, _ => s) st1

/-- Python `update_weather(frame, log)`. -/
def update_weather (frame : Nat) (st : State) : State :=
  if st.weather = .clear then
    if frame ≥ st.nextWeatherIn then
      let (w, r) := choiceO [Weather.rain, Weather.fog, Weather.storm] st.rng
      let (d, r2) := randintO (FPS * 30) (FPS * 60) r
      match w with
      | some w2 =>
        { st with
          weather := w2
          weatherTimer := FPS * 10
          nextWeatherIn := frame + d
          rng := r2
          log := st.log ++ [.weatherChanged w2] }
      | none => { st with rng := r2 }
    else st
  else
    let t := st.weatherTimer - 1
    if t = 0 then
      { st with weather := .clear, weatherTimer := 0, log := st.log ++ [.weatherCleared] }
    else { st with weatherTimer := t }

def adjacent_coords (p : Pos) : List Pos :=
  ([( 1, 0), (-1, 0), (0, 1), (0, -1)] : List Pos).filterMap (fun d =>
    let q : Pos := (p.1 + d.1, p.2 + d.2)
    if 0 ≤ q.1 ∧ q.1 < WIDTH ∧ 0 ≤ q.2 ∧ q.2 < HEIGHT then some q else none)

/-- Python `update_morale()`: per unit, +5 morale per adjacent ally and -3
per adjacent enemy (computed from the positions snapshot), a delta capped
at 0 when unsupplied, and the result clamped to [0, 100]; a zero delta
writes nothing. -/
def update_morale (st : State) : State :=
  let snapshot := (rosterUnits st).map (fun u => (u.pos, u.team))
  st.roster.foldl (fun s uid =>
    match findU s uid with
    | none => s
    | some u =>
      let adj := (adjacent_coords u.pos).flatMap (fun q =>
        snapshot.filter (fun e => e.1 = q))
      let allies := (adj.filter (fun e => e.2 = u.team)).length
      let enemies := (adj.filter (fun e => decide (e.2 ≠ u.team))).length
      let delta0 : Int := allies * 5 - enemies * 3
      let delta := if u.unsupplied then min delta0 0 else delta0
      if delta ≠ 0 then setU s { u with morale := max 0 (min 100 (u.morale + delta)) }
      else s) st

/-- The supply traversal of `update_supply_status`: from the HQ tile,
through tiles controlled by the team or occupied by a friendly unit
(Python pops from the end of the list, so this is a stack). Fuel bounds
the loop; it exceeds the number of board tiles and is never exhausted. -/
def supplyWalk (st : State) (t : Team) :
    Nat → List Pos → List Pos → List Pos → List Pos
  | 0, _, _, supplied => supplied
  | _ + 1, _, [], supplied => supplied
  | fuel + 1, visited, stack, supplied =>
    match stack.getLast? with
    | none => supplied
    | some cur =>
      let stack2 := stack.dropLast
      let supplied2 := supplied ++ [cur]
      let step := (adjacent_coords cur).foldl (fun vs q =>
        if q ∈ vs.1 then vs
        else if (st.ctrl q).owner = some t ∨
            (rosterUnits st).any (fun u => decide (u.x = q.1 ∧ u.y = q.2 ∧ u.team = t))
        then (vs.1 ++ [q], vs.2 ++ [q])
        else vs) (visited, stack2)
      supplyWalk st t fuel step.1 step.2 supplied2

def supplied_tiles (st : State) (t : Team) : List Pos :=
  supplyWalk st t 4000 [HQ_POS t] [HQ_POS t] []

/-- Python `update_supply_status(frame)`: units on a supplied tile are
marked supplied; the rest are unsupplied and once per second lose 1 hp. -/
def update_supply_status (frame : Nat) (st : State) : State :=
  let sb := supplied_tiles st .blue
  let sr := supplied_tiles st .red
  st.roster.foldl (fun s uid =>
    match findU s uid with
    | none => s
    | some u =>
      let sup := if u.team = .blue then sb else sr
      if u.pos ∈ sup then setU s { u with unsupplied := false }
      else
        let u2 := { u with unsupplied := true }
        let u3 := if frame % FPS = 0 then { u2 with hp := u2.hp - 1 } else u2
        setU s u3) st

/-- Python `update_commander_aura()`: clear every aura flag, then set it
for non-commander teammates within distance 2 of a commander. -/
def update_commander_aura (st : State) : State :=
  let commanders := (rosterUnits st).filter (fun u => u.isCommander)
  let st1 := st.roster.foldl (fun s uid =>
    match findU s uid with
    | none => s
    | some u => setU s { u with auraBonus := false }) st
  commanders.foldl (fun s cmd =>
    s.roster.foldl (fun s2 uid =>
      match findU s2 uid with
      | none => s2
      | some u =>
        if u.team = cmd.team ∧ |u.x - cmd.x| + |u.y - cmd.y| ≤ 2 ∧ ¬ u.isCommander
        then setU s2 { u with auraBonus := true }
        else s2) s) st1

/-- Python `update_buildings(frame)`: same capture logic as tiles, with
the owner changed only when a different team completes the timer. -/
def update_buildings (st : State) : State :=
  let res := st.buildings.foldl (fun acc b =>
    let occupiers := (rosterUnits st).filter
      (fun u => decide (u.x = b.bpos.1 ∧ u.y = b.bpos.2))
    match occupiers.head? with
    | some u =>
      let t := u.team
      let b1 := if b.capTeam = some t then { b with capTimer := b.capTimer + 1 }
                else { b with capTeam := some t, capTimer := 1 }
      if b1.owner ≠ some t ∧ b1.capTimer ≥ CAPTURE_FRAMES then
        (acc.1 ++ [{ b1 with owner := some t }], acc.2 ++ [LogEntry.buildingCaptured t])
      else (acc.1 ++ [b1], acc.2)
    | none => (acc.1 ++ [{ b with capTimer := 0, capTeam := none }], acc.2))
    (([] : List Building), ([] : List LogEntry))
  { st with buildings := res.1, log := st.log ++ res.2 }

/-- Python `check_hq_status(frame, log)`: once per second every unit
standing on the enemy HQ tile damages it; the first hit that brings an HQ
to 0 or below ends the game. -/
def check_hq_units (st : State) : List Unit → State × Bool
  | [] => (st, false)
  | u :: rest =>
    let hit := fun (st0 : State) (t : Team) =>
      let st1 := { st0 with
        hqHp := updT st0.hqHp t (st0.hqHp t - u.dmg),
        log := st0.log ++ [.hqHit u.id t u.dmg] }
      (st1, st1.hqHp t ≤ 0)
    if u.team ≠ .blue ∧ u.pos = HQ_POS .blue then
      let r := hit st .blue
      if r.2 then (r.1, true)
      else if u.team ≠ .red ∧ u.pos = HQ_POS .red then
        let r2 := hit r.1 .red
        if r2.2 then (r2.1, true) else check_hq_units r2.1 rest
      else check_hq_units r.1 rest
    else if u.team ≠ .red ∧ u.pos = HQ_POS .red then
      let r := hit st .red
      if r.2 then (r.1, true) else check_hq_units r.1 rest
    else check_hq_units st rest

def check_hq_status (frame : Nat) (st : State) : State × Bool :=
  if frame % FPS ≠ 0 then (st, false)
  else check_hq_units st (rosterUnits st)

/-- The attrition removal sweep of the main loop: over a snapshot of the
roster, remove units at 0 hp or below, with the death morale shock and the
kill credited to the other team. -/
def sweepGo : List Nat → State → Except PyErr State
  | [], st => .ok st
  | uid :: rest, st =>
    match findU st uid with
    | none => sweepGo rest st
    | some u =>
      if u.hp ≤ 0 then
        let st1 := { st with log := st.log ++ [LogEntry.attritionDeath u.id] }
        match rosterRemove st1.roster u.id with
        | .error e => .error e
        | .ok r2 =>
          let st2 := apply_nearby_death_morale { st1 with roster := r2 } u
          let st3 := { st2 with
            killTally := updK st2.killTally u.team.other (st2.killTally u.team.other + 1) }
          sweepGo rest st3
      else sweepGo rest st

def sweepPhase (st : State) : Except PyErr State :=
  sweepGo st.roster st

/-- One unit turn of the main-loop unit logic: `attempt_move` then
`attempt_attack`. -/
def unitGo : List Nat → State → Except PyErr State
  | [], st => .ok st
  | uid :: rest, st =>
    let st1 := Unit.attempt_move uid st
    match Unit.attempt_attack uid st1 with
    | .error e => .error e
    | .ok st2 => unitGo rest st2

/-- The per-unit phase: iterate over a snapshot (`units[:]`) of the
roster; a unit removed mid-phase still takes its turn through its live
object reference, as in Python. -/
def unitPhase (st : State) : Except PyErr State :=
  unitGo st.roster st

def offsetChoices : List Pos := [(0, 0), (1, 0), (-1, 0), (0, 1), (0, -1)]

/-- The attempts loop of `spawn_unit`: up to 20 random offsets around the
barracks; skip out-of-bounds or occupied tiles; on success construct the
unit and stop. -/
def spawnAttempts (t : Team) : Nat → State → State
  | 0, st => st
  | n + 1, st =>
    let (off, r) := choiceO offsetChoices st.rng
    let st := { st with rng := r }
    match off with
    | none => st
    | some d =>
      let b := BARRACKS_POS t
      let x := b.1 + d.1
      let y := b.2 + d.2
      if ¬ (0 ≤ x ∧ x < WIDTH ∧ 0 ≤ y ∧ y < HEIGHT) then spawnAttempts t n st
      else if (rosterUnits st).any (fun u => decide (u.x = x ∧ u.y = y)) then
        spawnAttempts t n st
      else
        let (cd, r2) := randintO MOVE_MIN MOVE_MAX st.rng
        let u := mkUnit (st.uidCtr + 1) x y t cd
        { st with
          rng := r2
          uidCtr := st.uidCtr + 1
          heap := st.heap ++ [(u.id, u)]
          roster := st.roster ++ [u.id] }

def spawn_unit (t : Team) (st : State) : State := spawnAttempts t 20 st

/-- One team of the per-second resource/spawn block of the main loop:
+1 resource, and with at least 3 resources and no storm, call
`spawn_unit` and then deduct 3 — the deduction happens whether or not
`spawn_unit` managed to place a unit. -/
def econTeamC (t : Team) (st : State) : State :=
  let st := { st with resources := updT st.resources t (st.resources t + 1) }
  if st.resources t ≥ 3 ∧ st.weather ≠ .storm then
    let st2 := spawn_unit t st
    { st2 with resources := updT st2.resources t (st2.resources t - 3) }
  else st

def econPhaseC (frame : Nat) (st : State) : State :=
  if frame % FPS = 0 ∧ frame ≠ 0 then econTeamC .red (econTeamC .blue st) else st

/-- Python `attack_log[:] = attack_log[-100:]`. -/
def trimLog (st : State) : State :=
  if st.log.length > 100 then { st with log := st.log.drop (st.log.length - 100) }
  else st

/-- One iteration of the `console_battle.py` main loop (render excluded),
in source order: economy/spawn, per-unit move+attack, territory update,
control resources, weather, morale, supply, commander aura, buildings,
attrition removal sweep, HQ status, log trim, elimination check. Returns
the new state and the winner, if the game ended this tick. -/
def tick (frame : Nat) (st : State) : Except PyErr (State × Option Team) :=
  let st := econPhaseC frame st
  match unitPhase st with
  | .error e => .error e
  | .ok st1 =>
    let st2 := update_control_map st1
    let st3 := award_control_resources frame st2
    let st4 := update_weather frame st3
    let st5 := update_morale st4
    let st6 := update_supply_status frame st5
    let st7 := update_commander_aura st6
    let st8 := update_buildings st7
    match sweepPhase st8 with
    | .error e => .error e
    | .ok st9 =>
      let r := check_hq_status frame st9
      if r.2 then .ok (r.1, some (if r.1.hqHp .red ≤ 0 then .blue else .red))
      else
        let st10 := trimLog r.1
        let bc := ((rosterUnits st10).filter (fun u => u.team = .blue)).length
        let rc := ((rosterUnits st10).filter (fun u => decide (u.team = .red))).length
        if bc = 0 ∨ rc = 0 then .ok (st10, some (if bc = 0 then .red else .blue))
        else .ok (st10, none)

/-- The tick in the phase order the specification states — differing from
`tick` only in the position of the removal sweep, which here runs
immediately after the per-unit update and before the territory and
morale/supply/weather phases. Written from the words of the spec, for
comparison with the source order. -/
def specOrderTick (frame : Nat) (st : State) : Except PyErr (State × Option Team) :=
  let st := econPhaseC frame st
  match unitPhase st with
  | .error e => .error e
  | .ok st1 =>
    match sweepPhase st1 with
    | .error e => .error e
    | .ok st2 =>
      let st3 := update_control_map st2
      let st4 := award_control_resources frame st3
      let st5 := update_weather frame st4
      let st6 := update_morale st5
      let st7 := update_supply_status frame st6
      let st8 := update_commander_aura st7
      let st9 := update_buildings st8
      let r := check_hq_status frame st9
      if r.2 then .ok (r.1, some (if r.1.hqHp .red ≤ 0 then .blue else .red))
      else
        let st10 := trimLog r.1
        let bc := ((rosterUnits st10).filter (fun u => u.team = .blue)).length
        let rc := ((rosterUnits st10).filter (fun u => decide (u.team = .red))).length
        if bc = 0 ∨ rc = 0 then .ok (st10, some (if bc = 0 then .red else .blue))
        else .ok (st10, none)

end Con

/-! Claim theorems. -/

/-- Terrain for the pathfinder witness: open only at the origin. -/
def wTerrW : Pos → Adv.Terr := fun p => if p = (0, 0) then .open_ else .wall

theorem wTerrW_reach {q : Pos} (h : Adv.Reach wTerrW (0, 0) q) : q = (0, 0) := by
  induction h with
  | refl => rfl
  | tail _ hbc ih =>
    rcases hbc with ⟨-, hw⟩
    by_contra hne
    refine hw ?_
    unfold wTerrW
    rw [if_neg hne]

/-- Claim C2: for every pathfinder call with a non-empty goal set — a
start already in the goal set returns none; a goal set with no member
reachable through walkable tiles returns the start tile; occupancy by
other units influences the result only through the neighbors of the start
tile (interior path tiles are never occupancy-checked); and when every
first step is occupied (start not a goal) the search returns the start. -/
theorem c2_pathfinder_theorem :
    (∀ (terr : Pos → Adv.Terr) (occ goals : List Pos) (start : Pos),
      start ∈ goals → Adv.Unit.bfs terr occ goals start = none) ∧
    (∀ (terr : Pos → Adv.Terr) (occ goals : List Pos) (start : Pos),
      (∀ g ∈ goals, ¬ Adv.Reach terr start g) →
      Adv.Unit.bfs terr occ goals start = some start) ∧
    (∀ (terr : Pos → Adv.Terr) (occ occ2 goals : List Pos) (start : Pos),
      (∀ n ∈ Adv.nbrs start, (n ∈ occ ↔ n ∈ occ2)) →
      Adv.Unit.bfs terr occ goals start = Adv.Unit.bfs terr occ2 goals start) ∧
    (∀ (terr : Pos → Adv.Terr) (occ goals : List Pos) (start : Pos),
      start ∉ goals → (∀ n ∈ Adv.nbrs start, n ∈ occ) →
      Adv.Unit.bfs terr occ goals start = some start) := by
  refine ⟨?_, ?_, ?_, ?_⟩
  · intro terr occ goals start h
    unfold Adv.Unit.bfs
    rw [Adv.bfsLoop.eq_def]
    simp [h]
  · intro terr occ goals start H
    unfold Adv.Unit.bfs
    exact Adv.bfsLoop_unreach terr occ goals start H
      (Adv.freeCnt [(start, none)] + 1) _ _ (by simp)
      (by
        intro p hp
        simp only [List.mem_singleton] at hp
        subst hp
        exact Relation.ReflTransGen.refl)
  · intro terr occ occ2 goals start H
    unfold Adv.Unit.bfs
    exact Adv.bfsLoop_occ_congr terr occ occ2 goals start H
      (Adv.freeCnt [(start, none)] + 1) _ _ (by simp)
  · intro terr occ goals start h1 h2
    unfold Adv.Unit.bfs
    rw [Adv.bfsLoop.eq_def]
    simp only [if_neg h1]
    rw [Adv.expand_skip_occ terr occ start (Adv.nbrs start) [(start, none)] h2]
    rw [Adv.bfsLoop.eq_def]
    simp

/-- Witness for C2 at concrete inputs. -/
theorem c2_pathfinder_witness :
    Adv.Unit.bfs wTerrW [] [((0 : Int), (0 : Int))] (0, 0) = none ∧
    Adv.Unit.bfs wTerrW [] [((2 : Int), (2 : Int))] (0, 0) = some (0, 0) ∧
    Adv.Unit.bfs wTerrW [((5 : Int), (5 : Int))] [((2 : Int), (2 : Int))] (0, 0) =
      Adv.Unit.bfs wTerrW [((5 : Int), (5 : Int)), ((20 : Int), (20 : Int))]
        [((2 : Int), (2 : Int))] (0, 0) ∧
    Adv.Unit.bfs wTerrW [((1 : Int), (0 : Int)), ((0 : Int), (1 : Int))]
      [((2 : Int), (2 : Int))] (0, 0) = some (0, 0) := by
  refine ⟨?_, ?_, ?_, ?_⟩
  · exact c2_pathfinder_theorem.1 wTerrW [] _ _ (by decide)
  · refine c2_pathfinder_theorem.2.1 wTerrW [] _ _ ?_
    intro g hg hr
    have hq := wTerrW_reach hr
    simp only [List.mem_singleton] at hg
    subst hg
    exact absurd hq (by decide)
  · exact c2_pathfinder_theorem.2.2.1 wTerrW _ _ _ _ (by decide)
  · exact c2_pathfinder_theorem.2.2.2 wTerrW _ _ _ (by decide) (by decide)

/-- One territory tick of a tile continuously occupied by a red unit. -/
def occRedStep (ts : Con.TileState) : Con.TileState :=
  Con.tileStep ts (some Team.red)

/-- One territory tick of an unoccupied tile. -/
def vacStep (ts : Con.TileState) : Con.TileState :=
  Con.tileStep ts none

/-- A fresh neutral tile. -/
def tile0 : Con.TileState :=
  { owner := none, capTeam := none, capTimer := 0, vacTimer := 0 }

theorem occRedStep_iter (n : Nat) :
    occRedStep^[n] tile0 =
      { owner := if 30 ≤ n then some Team.red else none,
        capTeam := if n = 0 then none else some Team.red,
        capTimer := n, vacTimer := 0 } := by
  induction n with
  | zero => simp [tile0]
  | succ k ih =>
    rw [Function.iterate_succ_apply', ih]
    unfold occRedStep Con.tileStep
    by_cases hk : k = 0
    · subst hk
      simp [Con.CAPTURE_FRAMES]
    · simp only [if_neg hk]
      simp only [Con.CAPTURE_FRAMES]
      by_cases h30 : k + 1 ≥ 30
      · simp only [if_pos h30]
        have : 30 ≤ k + 1 := h30
        simp [this]
      · simp only [if_neg h30]
        have h1 : ¬ 30 ≤ k + 1 := h30
        have h2 : ¬ 30 ≤ k := by omega
        simp [h1, h2, hk]

theorem vacStep_tile0 : vacStep tile0 = tile0 := by
  unfold vacStep Con.tileStep tile0
  simp

theorem vacStep_iter_tile0 (m : Nat) : vacStep^[m] tile0 = tile0 := by
  induction m with
  | zero => rfl
  | succ k ih => rw [Function.iterate_succ_apply', ih, vacStep_tile0]

/-- Claim C3: a non-HQ tile continuously occupied by Red from tick 0
becomes Red-owned exactly at tick 30 (not before, not after); vacating at
tick 29 resets the capture progress to 0 and ownership never completes.
The third part ties the single-tile automaton to `update_control_map`:
every non-HQ tile steps by `tileStep` on its first occupant. -/
theorem c3_capture_theorem :
    (∀ n : Nat, (occRedStep^[n] tile0).owner =
      if 30 ≤ n then some Team.red else none) ∧
    (∀ k : Nat,
      (vacStep^[k + 1] (occRedStep^[29] tile0)).owner = none ∧
      (vacStep^[k + 1] (occRedStep^[29] tile0)).capTimer = 0) ∧
    (∀ (st : Con.State) (p : Pos),
      (Con.update_control_map st).ctrl p =
        if p = Con.HQ_POS .blue ∨ p = Con.HQ_POS .red then st.ctrl p
        else Con.tileStep (st.ctrl p) (Con.occupantAt st p)) := by
  refine ⟨?_, ?_, ?_⟩
  · intro n
    rw [occRedStep_iter n]
  · intro k
    have h29 : occRedStep^[29] tile0 =
        { owner := none, capTeam := some Team.red, capTimer := 29, vacTimer := 0 } := by
      rw [occRedStep_iter 29]
      norm_num
    have hstep : vacStep (occRedStep^[29] tile0) = tile0 := by
      rw [h29]
      unfold vacStep Con.tileStep tile0
      simp
    rw [Function.iterate_succ_apply, hstep, vacStep_iter_tile0]
    exact ⟨rfl, rfl⟩
  · intro st p
    rfl

/-- A quiet console-battle state used as the base for concrete scenarios:
empty roster, both HQ tiles owned by their factions, clear weather with a
far-off next event, oracle stream of zeros. -/
def baseC : Con.State :=
  { heap := []
    roster := []
    uidCtr := 0
    resources := fun _ => 0
    hqHp := fun _ => Con.HQ_MAX_HP
    killTally := fun _ => 0
    ctrl := fun p =>
      if p = Con.HQ_POS .blue then { owner := some .blue, capTeam := none, capTimer := 0, vacTimer := 0 }
      else if p = Con.HQ_POS .red then { owner := some .red, capTeam := none, capTimer := 0, vacTimer := 0 }
      else { owner := none, capTeam := none, capTimer := 0, vacTimer := 0 }
    buildings := []
    weather := .clear
    weatherTimer := 0
    nextWeatherIn := 10000
    trailM := fun _ => none
    log := []
    rng := List.replicate 30 0 }

/-- Mixed-occupancy state for the C4 counterexample: tile (10, 10) is
owned by Blue, Red has 29 capture ticks accrued, and both a red unit
(first in roster order) and a blue unit stand on it. -/
def c4s : Con.State :=
  { baseC with
    heap := [(1, Con.mkUnit 1 10 10 .red 5), (2, Con.mkUnit 2 10 10 .blue 5)]
    roster := [1, 2]
    uidCtr := 2
    ctrl := fun p =>
      if p = (10, 10) then { owner := some Team.blue, capTeam := some Team.red, capTimer := 29, vacTimer := 0 }
      else baseC.ctrl p }

/-- Counterexample to C4 as stated: a Blue-owned tile occupied by at least
one Blue unit loses its Blue owner in one territory tick, because the
first unit in roster order on the tile is Red and Red completes its
capture timer. -/
theorem c4_owned_counterexample :
    (Con.unitsAt c4s (10, 10)).any (fun u => u.team = Team.blue) = true ∧
    (c4s.ctrl (10, 10)).owner = some Team.blue ∧
    ((Con.update_control_map c4s).ctrl (10, 10)).owner = some Team.red := by
  refine ⟨by decide, by decide, by decide⟩

/-- Claim C4 (amended): a non-HQ tile owned by F and occupied by units of
F only keeps its owner and gets vacate counter 0 from the territory
update. -/
theorem c4_owned_theorem (st : Con.State) (p : Pos) (f : Team)
    (hb : p ≠ Con.HQ_POS .blue) (hr : p ≠ Con.HQ_POS .red)
    (howner : (st.ctrl p).owner = some f)
    (hocc : Con.unitsAt st p ≠ [])
    (hall : ∀ u ∈ Con.unitsAt st p, u.team = f) :
    ((Con.update_control_map st).ctrl p).owner = some f ∧
    ((Con.update_control_map st).ctrl p).vacTimer = 0 := by
  have hocc2 : Con.occupantAt st p = some f := by
    unfold Con.occupantAt
    cases hu : Con.unitsAt st p with
    | nil => exact absurd hu hocc
    | cons a t =>
      have ha := hall a (by rw [hu]; exact List.mem_cons_self a t)
      simp [ha]
  have hco : (Con.update_control_map st).ctrl p =
      Con.tileStep (st.ctrl p) (Con.occupantAt st p) := by
    unfold Con.update_control_map
    have : ¬ (p = Con.HQ_POS .blue ∨ p = Con.HQ_POS .red) := by
      rintro (h | h)
      · exact hb h
      · exact hr h
    simp [this]
  rw [hco, hocc2]
  unfold Con.tileStep
  by_cases hct : (st.ctrl p).capTeam = some f
  · simp only [hct, if_true]
    by_cases ht : (st.ctrl p).capTimer + 1 ≥ Con.CAPTURE_FRAMES
    · simp [ht]
    · simp [ht, howner]
  · simp only [hct, if_false]
    by_cases ht : (1 : Nat) ≥ Con.CAPTURE_FRAMES
    · simp [ht]
    · simp [ht, howner]

/-- All-Blue occupancy state for the C4 witness. -/
def c4w : Con.State :=
  { baseC with
    heap := [(1, Con.mkUnit 1 10 10 .blue 5)]
    roster := [1]
    uidCtr := 1
    ctrl := fun p =>
      if p = (10, 10) then { owner := some Team.blue, capTeam := some Team.blue, capTimer := 40, vacTimer := 0 }
      else baseC.ctrl p }

theorem c4_owned_witness :
    ((Con.update_control_map c4w).ctrl (10, 10)).owner = some Team.blue ∧
    ((Con.update_control_map c4w).ctrl (10, 10)).vacTimer = 0 :=
  c4_owned_theorem c4w (10, 10) Team.blue (by decide) (by decide) (by decide)
    (by decide) (by decide)

theorem removeFirst_any_false (us : List Adv.Unit) (i : Nat)
    (h : (us.map Adv.Unit.uid).Nodup) :
    (Adv.removeFirst us i).any (fun u => u.uid = i) = false := by
  induction us with
  | nil => rfl
  | cons u r ih =>
    simp only [List.map_cons, List.nodup_cons] at h
    by_cases hu : u.uid = i
    · unfold Adv.removeFirst
      rw [if_pos hu]
      rw [List.any_eq_false]
      intro v hv
      simp only [decide_eq_true_eq]
      intro hvi
      exact h.1 (by rw [← hu, ← hvi] at *; exact List.mem_map_of_mem Adv.Unit.uid hv)
    · unfold Adv.removeFirst
      rw [if_neg hu]
      simp only [List.any_cons]
      rw [ih h.2]
      simp [hu]

/-- Claim C6 (amended): the guarded removal of `advanced_battle.py` is
idempotent on rosters with distinct uids, and is a no-op on an absent
unit. -/
theorem c6_removal_theorem :
    (∀ (us : List Adv.Unit) (i : Nat),
      (us.map Adv.Unit.uid).Nodup →
      Adv.removeGuarded (Adv.removeGuarded us i) i = Adv.removeGuarded us i) ∧
    (∀ (us : List Adv.Unit) (i : Nat),
      us.any (fun u => u.uid = i) = false →
      Adv.removeGuarded us i = us) := by
  constructor
  · intro us i h
    by_cases hp : us.any (fun u => u.uid = i) = true
    · have h1 : Adv.removeGuarded us i = Adv.removeFirst us i := by
        unfold Adv.removeGuarded
        rw [if_pos hp]
      rw [h1]
      unfold Adv.removeGuarded
      rw [if_neg (by rw [removeFirst_any_false us i h]; simp)]
    · have h1 : Adv.removeGuarded us i = us := by
        unfold Adv.removeGuarded
        rw [if_neg hp]
      rw [h1, h1]
  · intro us i h
    unfold Adv.removeGuarded
    rw [if_neg (by rw [h]; simp)]

def c6us : List Adv.Unit :=
  [Adv.mkUnit 1 .blue 3 3 .Infantry 5, Adv.mkUnit 2 .red 4 4 .Scout 5]

theorem c6_removal_witness :
    Adv.removeGuarded (Adv.removeGuarded c6us 1) 1 = Adv.removeGuarded c6us 1 ∧
    Adv.removeGuarded c6us 9 = c6us :=
  ⟨c6_removal_theorem.1 c6us 1 (by decide), c6_removal_theorem.2 c6us 9 (by decide)⟩

/-- Counterexample to C6 as stated: the removal of `console_battle.py` is
the bare `units.remove(u)`, which raises ValueError on an absent unit:
removing the same id twice from a one-unit roster faults instead of
being a no-op. -/
theorem c6_removal_counterexample :
    Con.rosterRemove [7] 7 = .ok [] ∧
    (match Con.rosterRemove [7] 7 with
     | .ok r => Con.rosterRemove r 7
     | .error e => .error e) = .error PyErr.valueError :=
  ⟨rfl, rfl⟩

/-- A freshly spawned unit whose initial movement delay has expired. -/
def c9s : Adv.State :=
  { units := [Adv.mkUnit 1 .blue 5 5 .Infantry 0]
    hqHp := fun _ => Adv.HQ_HP
    terr := fun _ => .open_
    resources := fun _ => 10
    uidCtr := 1
    rng := [] }

/-- Claim C9 (code bug): `Unit.update` reads `self.cooldown`, which
`__init__` never assigns; the first tick on which a unit with the
attribute still unset reaches movement cooldown 0 raises AttributeError
mid-simulation. -/
theorem c9_update_theorem :
    Adv.Unit.update 1 30 (fun _ => []) c9s = .error PyErr.attributeError := rfl

/-- Scenario B state: a blue Tank (damage 20) standing on the red HQ with
attack cooldown 0 and a red HQ at 10 health; its movement cooldown is
still running, so each `Unit.update` takes the waiting path and attacks. -/
def c1bs : Adv.State :=
  { units := [Adv.mkUnit 1 .blue 37 14 .Tank 10]
    hqHp := fun t => match t with | .blue => Adv.HQ_HP | .red => 10
    terr := fun _ => .open_
    resources := fun _ => 10
    uidCtr := 1
    rng := [] }

def c1upd (frame : Nat) (r : Except PyErr Adv.State) : Except PyErr Adv.State :=
  match r with
  | .error e => .error e
  | .ok s => Adv.Unit.update 1 frame (fun _ => []) s

def c1b2 : Except PyErr Adv.State := c1upd 2 (c1upd 1 (.ok c1bs))

def c1b3 : Except PyErr Adv.State := c1upd 3 c1b2

/-- Claim C1 (amended): the siege logic of `Unit.attack`, which runs only
when the attack cooldown is 0 and no adjacent enemy is hit — on the enemy
HQ the counter increments, at the threshold 3 the HQ takes the damage and
the counter resets, off the HQ the counter resets; and Scenario B (HQ at
10 health, damage-20 unit standing on it with idle attack cooldown) takes
exactly 3 ticks to drop the HQ to -10, reported as a Blue win. -/
theorem c1_siege_theorem :
    (∀ (st : Adv.State) (uid : Nat) (self : Adv.Unit),
      Adv.findU st uid = some self →
      self.attackCd = 0 →
      Adv.findAdjEnemy self st.units = none →
      self.pos ∈ Adv.HQ.tiles self.team.other →
      self.hqCounter + 1 < 3 →
      Adv.Unit.attack uid st =
        (false, Adv.setU st { self with hqCounter := self.hqCounter + 1 })) ∧
    (∀ (st : Adv.State) (uid : Nat) (self : Adv.Unit),
      Adv.findU st uid = some self →
      self.attackCd = 0 →
      Adv.findAdjEnemy self st.units = none →
      self.pos ∈ Adv.HQ.tiles self.team.other →
      self.hqCounter + 1 ≥ 3 →
      Adv.Unit.attack uid st =
        (false, Adv.setU { st with hqHp := Adv.updT st.hqHp self.team.other (st.hqHp self.team.other - self.dmg) } { self with hqCounter := 0 })) ∧
    (∀ (st : Adv.State) (uid : Nat) (self : Adv.Unit),
      Adv.findU st uid = some self →
      self.attackCd = 0 →
      Adv.findAdjEnemy self st.units = none →
      self.pos ∉ Adv.HQ.tiles self.team.other →
      Adv.Unit.attack uid st = (false, Adv.setU st { self with hqCounter := 0 })) ∧
    (c1b2.map (fun s => s.hqHp .red) = .ok 10 ∧
     c1b3.map (fun s => s.hqHp .red) = .ok (-10) ∧
     c1b3.map Adv.hqWinner = .ok (some Team.blue)) := by
  refine ⟨?_, ?_, ?_, rfl, rfl, rfl⟩
  · intro st uid self hfind hcd hadj hon h3
    unfold Adv.Unit.attack
    rw [hfind]
    simp only [hcd, hadj, gt_iff_lt, lt_self_iff_false, if_false]
    rw [if_pos hon, if_neg (by omega)]
  · intro st uid self hfind hcd hadj hon h3
    unfold Adv.Unit.attack
    rw [hfind]
    simp only [hcd, hadj, gt_iff_lt, lt_self_iff_false, if_false]
    rw [if_pos hon, if_pos h3]
  · intro st uid self hfind hcd hadj hoff
    unfold Adv.Unit.attack
    rw [hfind]
    simp only [hcd, hadj, gt_iff_lt, lt_self_iff_false, if_false]
    rw [if_neg hoff]

/-- Sieging unit with its counter at 2 (one tick from the threshold). -/
def c1w2 : Adv.State :=
  { c1bs with units := [{ Adv.mkUnit 1 .blue 37 14 .Tank 10 with hqCounter := 2 }] }

/-- Unit away from the enemy HQ with a stale counter. -/
def c1w3 : Adv.State :=
  { c1bs with units := [{ Adv.mkUnit 1 .blue 5 5 .Tank 10 with hqCounter := 2 }] }

theorem c1_siege_witness :
    Adv.Unit.attack 1 c1bs =
      (false, Adv.setU c1bs { Adv.mkUnit 1 .blue 37 14 .Tank 10 with hqCounter := 1 }) ∧
    Adv.Unit.attack 1 c1w2 =
      (false, Adv.setU { c1w2 with hqHp := Adv.updT c1w2.hqHp Team.red (c1w2.hqHp Team.red - 20) } { Adv.mkUnit 1 .blue 37 14 .Tank 10 with hqCounter := 0 }) ∧
    Adv.Unit.attack 1 c1w3 =
      (false, Adv.setU c1w3 { Adv.mkUnit 1 .blue 5 5 .Tank 10 with hqCounter := 0 }) := by
  refine ⟨?_, ?_, ?_⟩
  · exact c1_siege_theorem.1 c1bs 1 (Adv.mkUnit 1 .blue 37 14 .Tank 10)
      rfl rfl rfl (by decide) (by decide)
  · exact c1_siege_theorem.2.1 c1w2 1
      ({ Adv.mkUnit 1 .blue 37 14 .Tank 10 with hqCounter := 2 })
      rfl rfl rfl (by decide) (by decide)
  · exact c1_siege_theorem.2.2.1 c1w3 1
      ({ Adv.mkUnit 1 .blue 5 5 .Tank 10 with hqCounter := 2 })
      rfl rfl rfl (by decide)

/-- Sieging unit whose adjacency-attack cooldown is still running. -/
def c1cs : Adv.State :=
  { units := [{ Adv.mkUnit 1 .blue 37 14 .Tank 5 with attackCd := 2 }]
    hqHp := fun _ => Adv.HQ_HP
    terr := fun _ => .open_
    resources := fun _ => 10
    uidCtr := 1
    rng := [] }

/-- Counterexample to C1 as stated: a unit standing on the enemy HQ whose
attack cooldown (2 at tick start, 1 after the decrement) is still running
does not increment its siege counter that tick — the siege throttle is
gated by the adjacency-combat attack cooldown, not independent of it. -/
theorem c1_siege_counterexample :
    ((37 : Int), (14 : Int)) ∈ Adv.HQ.tiles (Team.blue.other) ∧
    (Adv.Unit.update 1 7 (fun _ => []) c1cs).map
      (fun s => (Adv.findU s 1).map (fun u => u.hqCounter)) = .ok (some 0) :=
  ⟨by decide, rfl⟩

/-- Claim C7 (amended for `advanced_battle.py`): when no spawn candidate
tile exists, the resource/spawn phase leaves the roster unchanged and the
team resources changed only by the +1 per-second income — nothing is
deducted. (In `console_battle.py` the deduction happens regardless; see
the counterexample.) -/
theorem c7_spawn_theorem (st : Adv.State) (t : Team)
    (h : Adv.spawnCandidates st.terr st.units t = []) :
    (Adv.econTeam t st).units = st.units ∧
    (Adv.econTeam t st).resources t = st.resources t + 1 := by
  unfold Adv.econTeam
  dsimp only
  by_cases ha : (Adv.allTypes.filter (fun ty =>
      decide (Adv.typeCost ty ≤ Adv.updT st.resources t (st.resources t + 1) t))).isEmpty
  · rw [if_pos ha]
    exact ⟨rfl, by simp [Adv.updT]⟩
  · rw [if_neg ha]
    rcases hc : choiceO (Adv.allTypes.filter (fun ty =>
        decide (Adv.typeCost ty ≤ Adv.updT st.resources t (st.resources t + 1) t)))
        (st.rng) with ⟨o, r⟩
    cases o with
    | none => exact ⟨rfl, by simp [Adv.updT]⟩
    | some ty =>
      dsimp only
      rw [h]
      simp only [List.isEmpty_nil, if_true]
      exact ⟨by trivial, by simp [Adv.updT]⟩

/-- Spawn-phase state with every tile walled: no spawn candidate exists. -/
def c7w : Adv.State :=
  { units := []
    hqHp := fun _ => Adv.HQ_HP
    terr := fun _ => .wall
    resources := fun _ => 5
    uidCtr := 0
    rng := [0, 0, 0] }

theorem c7_spawn_witness :
    (Adv.econTeam .blue c7w).units = c7w.units ∧
    (Adv.econTeam .blue c7w).resources .blue = c7w.resources .blue + 1 :=
  c7_spawn_theorem c7w .blue (by decide)

/-- Console state for the C7 counterexample: Blue has 2 resources (3
after income) and all five candidate tiles around its barracks are
occupied, so `spawn_unit` places nothing — yet the caller still deducts
the 3-resource cost. -/
def c7s : Con.State :=
  { baseC with
    heap := [(1, Con.mkUnit 1 2 15 .blue 5), (2, Con.mkUnit 2 3 15 .blue 5),
             (3, Con.mkUnit 3 1 15 .blue 5), (4, Con.mkUnit 4 2 16 .blue 5),
             (5, Con.mkUnit 5 2 14 .blue 5)]
    roster := [1, 2, 3, 4, 5]
    uidCtr := 5
    resources := fun t => match t with | .blue => 2 | .red => 0 }

/-- Counterexample to C7 as stated, on `console_battle.py`: the spawn is
skipped (roster unchanged) but the Blue resource counter, which income
alone would have left at 3, ends at 0 — the speculative deduction is not
rolled back. -/
theorem c7_spawn_counterexample :
    (Con.econPhaseC 10 c7s).roster = c7s.roster ∧
    c7s.resources .blue + 1 = 3 ∧
    (Con.econPhaseC 10 c7s).resources .blue = 0 := by
  refine ⟨by decide, by decide, by decide⟩

/-- Claim C10 (amended): a unit with morale below 20 and an in-bounds
retreat tile moves one tile along x away from the enemy side on every
tick, regardless of its movement cooldown, of terrain, and of who occupies
the target tile, and its movement cooldown is reset by `_reset_cd`. -/
theorem c10_flee_theorem (st : Con.State) (uid : Nat) (u : Con.Unit)
    (hfind : Con.findU st uid = some u)
    (hm : u.morale < 20)
    (hin : 0 ≤ u.x + Con.fleeDx u.team ∧ u.x + Con.fleeDx u.team < Con.WIDTH) :
    Con.Unit.attempt_move uid st =
      (Con.setU { Con.setTrail st u.pos with rng := (Con.Unit.reset_cd (Con.setTrail st u.pos) { u with x := u.x + Con.fleeDx u.team }).2 } (Con.Unit.reset_cd (Con.setTrail st u.pos) { u with x := u.x + Con.fleeDx u.team }).1) := by
  unfold Con.Unit.attempt_move
  rw [hfind]
  dsimp only
  rw [if_pos hm, if_pos hin]

/-- Normal-movement state for the C10 counterexample: a full-morale blue
unit with expired cooldown at (5, 5), its nearest enemy at (9, 5), and an
allied unit already standing on the step tile (6, 5). -/
def c10s : Con.State :=
  { baseC with
    heap := [(1, Con.mkUnit 1 5 5 .blue 0), (2, Con.mkUnit 2 9 5 .red 5),
             (3, Con.mkUnit 3 6 5 .blue 5)]
    roster := [1, 2, 3]
    uidCtr := 3 }

/-- Counterexample to C10 as stated: the claim presupposes a
tile-occupancy check (and a terrain-walkability check) governing normal
movement, but normal movement has neither — a normal (high-morale) move
steps straight onto a tile occupied by another unit. -/
theorem c10_flee_counterexample :
    (Con.unitsAt c10s (6, 5)).length = 1 ∧
    (Con.findU (Con.Unit.attempt_move 1 c10s) 1).map (fun v => (v.x, v.y)) =
      some (6, 5) := by
  refine ⟨by decide, by decide⟩

/-- Fleeing unit for the C10 witness: morale 10, still-running cooldown 7. -/
def c10w : Con.State :=
  { baseC with
    heap := [(1, { Con.mkUnit 1 5 5 .blue 7 with morale := 10 })]
    roster := [1]
    uidCtr := 1 }

theorem c10_flee_witness :
    (Con.findU (Con.Unit.attempt_move 1 c10w) 1).map (fun v => (v.x, v.y, v.moveCd)) =
      some (4, 5, 5) := by
  have h := c10_flee_theorem c10w 1 ({ Con.mkUnit 1 5 5 .blue 7 with morale := 10 })
    rfl (by decide) (by decide)
  rw [h]
  rfl

/-- Every unit object on the heap has morale within [0, 100]. -/
def moraleOK (st : Con.State) : Prop :=
  ∀ e ∈ st.heap, 0 ≤ e.2.morale ∧ e.2.morale ≤ 100

theorem moraleOK_setU {st : Con.State} {u : Con.Unit} (hm : moraleOK st)
    (hu : 0 ≤ u.morale ∧ u.morale ≤ 100) : moraleOK (Con.setU st u) := by
  intro e he
  unfold Con.setU at he
  simp only [List.mem_map] at he
  obtain ⟨e0, he0, rfl⟩ := he
  by_cases h : e0.1 = u.id
  · simp only [h, if_true]
    exact hu
  · simp only [h, if_false]
    exact hm e0 he0

theorem moraleOK_findU {st : Con.State} {uid : Nat} {u : Con.Unit}
    (hm : moraleOK st) (h : Con.findU st uid = some u) :
    0 ≤ u.morale ∧ u.morale ≤ 100 := by
  unfold Con.findU at h
  cases hf : st.heap.find? (fun e => e.1 = uid) with
  | none => rw [hf] at h; simp at h
  | some e =>
    rw [hf] at h
    simp only [Option.map_some', Option.some.injEq] at h
    have he := List.mem_of_find?_eq_some hf
    rw [← h]
    exact hm e he

theorem moraleOK_rosterUnits {st : Con.State} {u : Con.Unit}
    (hm : moraleOK st) (h : u ∈ Con.rosterUnits st) :
    0 ≤ u.morale ∧ u.morale ≤ 100 := by
  unfold Con.rosterUnits at h
  simp only [List.mem_filterMap] at h
  obtain ⟨uid, _, hf⟩ := h
  exact moraleOK_findU hm hf

theorem foldl_moraleOK {α : Type} (f : Con.State → α → Con.State)
    (hf : ∀ s a, moraleOK s → moraleOK (f s a)) :
    ∀ (l : List α) (s : Con.State), moraleOK s → moraleOK (l.foldl f s) := by
  intro l
  induction l with
  | nil => intro s hs; exact hs
  | cons a r ih => intro s hs; exact ih (f s a) (hf s a hs)

theorem clamp_morale_bounds (v : Int) :
    0 ≤ max 0 (min 100 v) ∧ max 0 (min 100 v) ≤ 100 :=
  ⟨le_max_left 0 _, max_le (by norm_num) (min_le_left _ _)⟩

theorem clamp_sub_bounds (m k : Int) (hm : 0 ≤ m ∧ m ≤ 100) (hk : 0 ≤ k) :
    0 ≤ max 0 (m - k) ∧ max 0 (m - k) ≤ 100 :=
  ⟨le_max_left _ _, max_le (by norm_num) (by omega)⟩

theorem update_morale_moraleOK (st : Con.State) (hm : moraleOK st) :
    moraleOK (Con.update_morale st) := by
  unfold Con.update_morale
  refine foldl_moraleOK _ ?_ _ _ hm
  intro s uid hs
  cases hf : Con.findU s uid with
  | none => simp only [hf]; exact hs
  | some u =>
    simp only [hf]
    split
    · split
      · refine moraleOK_setU hs ?_
        exact clamp_morale_bounds _
      · exact hs
    · split
      · refine moraleOK_setU hs ?_
        exact clamp_morale_bounds _
      · exact hs

theorem apply_nearby_death_moraleOK (st : Con.State) (d : Con.Unit)
    (hm : moraleOK st) : moraleOK (Con.apply_nearby_death_morale st d) := by
  unfold Con.apply_nearby_death_morale
  refine foldl_moraleOK _ ?_ _ _ hm
  intro s uid hs
  cases hf : Con.findU s uid with
  | none => simp only [hf]; exact hs
  | some u =>
    simp only [hf]
    split
    · exact moraleOK_setU hs (clamp_sub_bounds u.morale 10 (moraleOK_findU hs hf) (by norm_num))
    · exact hs

theorem commanderPenalty_moraleOK (st : Con.State) (t : Team)
    (hm : moraleOK st) : moraleOK (Con.commanderPenalty st t) := by
  unfold Con.commanderPenalty
  refine foldl_moraleOK _ ?_ _ _ hm
  intro s uid hs
  cases hf : Con.findU s uid with
  | none => simp only [hf]; exact hs
  | some u =>
    simp only [hf]
    split
    · exact moraleOK_setU hs (clamp_sub_bounds u.morale 30 (moraleOK_findU hs hf) (by norm_num))
    · exact hs

theorem become_elite_moraleOK (st : Con.State) (u : Con.Unit)
    (hm : moraleOK st) (hu : 0 ≤ u.morale ∧ u.morale ≤ 100) :
    moraleOK (Con.Unit.become_elite st u) := by
  unfold Con.Unit.become_elite
  intro e he
  dsimp only at he
  refine moraleOK_setU hm ?_ e he
  exact hu


theorem killEffects_moraleOK (self u2 : Con.Unit) (st st2 : Con.State)
    (hm : moraleOK st) (hself : 0 ≤ self.morale ∧ self.morale ≤ 100)
    (h : Con.killEffects self u2 st = .ok st2) : moraleOK st2 := by
  unfold Con.killEffects at h
  dsimp only at h
  cases hr : Con.rosterRemove st.roster u2.id with
  | error e => rw [hr] at h; simp at h
  | ok r2 =>
    rw [hr] at h
    dsimp only at h
    split at h <;>
      (simp only [Except.ok.injEq] at h
       subst h)
    · refine become_elite_moraleOK _ _ ?_ ?_
      · refine moraleOK_setU ?_ ?_
        · split
          · refine commanderPenalty_moraleOK _ _ ?_
            refine apply_nearby_death_moraleOK _ _ ?_
            exact hm
          · refine apply_nearby_death_moraleOK _ _ ?_
            exact hm
        · exact hself
      · exact hself
    · refine moraleOK_setU ?_ ?_
      · split
        · refine commanderPenalty_moraleOK _ _ ?_
          refine apply_nearby_death_moraleOK _ _ ?_
          exact hm
        · refine apply_nearby_death_moraleOK _ _ ?_
          exact hm
      · exact hself

theorem attempt_attack_moraleOK (uid : Nat) (st st2 : Con.State)
    (hm : moraleOK st) (h : Con.Unit.attempt_attack uid st = .ok st2) :
    moraleOK st2 := by
  unfold Con.Unit.attempt_attack at h
  cases hf : Con.findU st uid with
  | none =>
    rw [hf] at h
    simp only [Except.ok.injEq] at h
    rw [← h]
    exact hm
  | some self =>
    rw [hf] at h
    dsimp only at h
    cases he : (Con.rosterUnits st).find? (fun e =>
        decide (e.team ≠ self.team ∧ e.x = self.x ∧ e.y = self.y)) with
    | none =>
      rw [he] at h
      simp only [Except.ok.injEq] at h
      rw [← h]
      exact hm
    | some u =>
      rw [he] at h
      dsimp only at h
      have hub := moraleOK_rosterUnits hm (List.mem_of_find?_eq_some he)
      have hsb := moraleOK_findU hm hf
      split at h <;> split at h
      · refine killEffects_moraleOK self _ _ st2 ?_ hsb h
        refine moraleOK_setU ?_ ?_
        · refine moraleOK_setU hm ?_
          exact hub
        · exact hsb
      · simp only [Except.ok.injEq] at h
        rw [← h]
        refine moraleOK_setU ?_ ?_
        · refine moraleOK_setU hm ?_
          exact hub
        · exact hsb
      · refine killEffects_moraleOK self _ _ st2 ?_ hsb h
        refine moraleOK_setU ?_ ?_
        · refine moraleOK_setU hm ?_
          exact hub
        · exact hsb
      · simp only [Except.ok.injEq] at h
        rw [← h]
        refine moraleOK_setU ?_ ?_
        · refine moraleOK_setU hm ?_
          exact hub
        · exact hsb

/-- Claim C8: morale stays within [0, 100] across every operation that
modifies it — the per-tick morale delta of `update_morale`, the
nearby-ally death shock, and `attempt_attack` (which also applies the
commander-death penalty). -/
theorem c8_morale_theorem :
    (∀ st : Con.State, moraleOK st → moraleOK (Con.update_morale st)) ∧
    (∀ (st : Con.State) (d : Con.Unit), moraleOK st →
      moraleOK (Con.apply_nearby_death_morale st d)) ∧
    (∀ (uid : Nat) (st st2 : Con.State), moraleOK st →
      Con.Unit.attempt_attack uid st = .ok st2 → moraleOK st2) :=
  ⟨update_morale_moraleOK, apply_nearby_death_moraleOK,
   fun uid st st2 hm h => attempt_attack_moraleOK uid st st2 hm h⟩

theorem c8_morale_witness :
    moraleOK (Con.update_morale c10s) ∧
    moraleOK (Con.apply_nearby_death_morale c10s (Con.mkUnit 9 5 6 .red 5)) ∧
    moraleOK c10s :=
  ⟨c8_morale_theorem.1 c10s (by unfold moraleOK; decide),
   c8_morale_theorem.2.1 c10s (Con.mkUnit 9 5 6 .red 5) (by unfold moraleOK; decide),
   c8_morale_theorem.2.2 1 c10s c10s (by unfold moraleOK; decide) rfl⟩

/-- C5 scenario: a supplied-looking blue unit far from its HQ and a red
unit at 1 hp, both actually unsupplied; at frame 10 supply attrition drops
the red unit to 0 hp inside the morale/supply phase. -/
def c5s : Con.State :=
  { baseC with
    heap := [(1, Con.mkUnit 1 5 5 .blue 5), (2, { Con.mkUnit 2 30 0 .red 5 with hp := 1 })]
    roster := [1, 2]
    uidCtr := 2 }

def exRoster (r : Except PyErr (Con.State × Option Team)) : Option (List Nat) :=
  match r with
  | .ok s => some s.1.roster
  | .error _ => none

def exOutcome (r : Except PyErr (Con.State × Option Team)) : Option (Option Team) :=
  match r with
  | .ok s => some s.2
  | .error _ => none

def exCapTimer (r : Except PyErr (Con.State × Option Team)) (p : Pos) : Option Nat :=
  match r with
  | .ok s => some ((s.1.ctrl p).capTimer)
  | .error _ => none

/-- Claim C5 (amended): in the source order the territory update runs
before the removal sweep, which runs after the morale/supply/weather
phases — at `c5s` the territory phase still observes the red unit that
supply attrition kills this same tick (capture progress 1 on its tile),
the sweep then removes it before the win-condition check, and Blue wins
by elimination within the same tick. -/
theorem c5_order_theorem :
    exRoster (Con.tick 10 c5s) = some [1] ∧
    exCapTimer (Con.tick 10 c5s) (30, 0) = some 1 ∧
    exOutcome (Con.tick 10 c5s) = some (some Team.blue) := by
  refine ⟨by decide, by decide, by decide⟩

/-- Counterexample to C5 as stated: running the phases in the claimed
order (removal sweep immediately after the per-unit update, before
territory and morale/supply/weather) produces a different end-of-tick
roster than the source order on the same state. -/
theorem c5_order_counterexample :
    exRoster (Con.tick 10 c5s) ≠ exRoster (Con.specOrderTick 10 c5s) := by
  decide
